import Mathlib

/-!
# Receipt polling with replace-by-fee (`packages/arb-node-core/ethbridge/chain.go`)

A shallow embedding of `waitForReceiptWithResultsSimpleInternal`,
`WaitForReceiptWithResultsSimple`, `WaitForReceiptWithResultsAndReplaceByFee`
and `WaitForReceiptWithResults`.

The Go code talks to the outside world (clock, context, chain client, auth
provider).  Here every loop iteration consumes one `Event` of a finite
script: either the context is done, or the one-second timer fired, and then
the event carries the answers the outside world gives to the calls made on
that tick.  Every outside call is appended to `World.calls`, so that the
order and arguments of the calls can be stated.  A script that ends before
the function has returned leaves it `Run.blocked` at the wait point.
-/

namespace Ethbridge

/-- `ethcommon.Hash`; the zero value `ethcommon.Hash{}` is `0`. -/
abbrev Hash := Nat

/-- `ethcommon.Address`. -/
abbrev Address := Nat

/-- A Go `[]byte`. -/
abbrev Bytes := List Nat

/-- Go `string(data)`: a Go string is a byte sequence; the byte `b` is written
as the character of code `b`. -/
def goString (data : Bytes) : String := String.mk (data.map Char.ofNat)

/-- Go `error` values as built by `github.com/pkg/errors`: a base error with
its message, `errors.WithStack`, and `errors.Wrapf` with its formatted
context. -/
inductive GoError where
  | New (msg : String)
  | WithStack (cause : GoError)
  | Wrapf (cause : GoError) (msg : String)
  deriving DecidableEq, Repr

/-- The method `err.Error()`. -/
def GoError.Error : GoError → String
  | .New msg => msg
  | .WithStack cause => cause.Error
  | .Wrapf cause msg => msg ++ ": " ++ cause.Error

/-- `errors.Errorf` with a format that has no verbs left to fill. -/
def Errorf (msg : String) : GoError := .New msg

/-- The accessors of a go-ethereum `types.Transaction` used by `chain.go`;
`Sig` stands for the signature values, which a signer fills in. -/
structure Transaction where
  Nonce : Nat
  GasPrice : Int
  GasTipCap : Int
  GasFeeCap : Int
  Gas : Nat
  To : Option Address
  Value : Int
  Data : Bytes
  Sig : Nat
  deriving DecidableEq, Repr

/-- The go-ethereum `types.LegacyTx` literal of lines 99-106. -/
structure LegacyTx where
  Nonce : Nat
  GasPrice : Int
  Gas : Nat
  To : Option Address
  Value : Int
  Data : Bytes
  deriving DecidableEq, Repr

/-- `types.NewTx` on a legacy transaction: unsigned, and both fee caps of a
legacy transaction are its gas price. -/
def NewTx (inner : LegacyTx) : Transaction :=
  { Nonce := inner.Nonce, GasPrice := inner.GasPrice, GasTipCap := inner.GasPrice,
    GasFeeCap := inner.GasPrice, Gas := inner.Gas, To := inner.To, Value := inner.Value,
    Data := inner.Data, Sig := 0 }

/-- The fields of `types.Receipt` named by the specification. -/
structure Receipt where
  Status : Nat
  BlockNumber : Int
  TxHash : Hash
  deriving DecidableEq, Repr

/-- The `ethereum.CallMsg` literal of lines 126-134. -/
structure CallMsg where
  From : Address
  To : Option Address
  Gas : Nat
  GasTipCap : Int
  GasFeeCap : Int
  Value : Int
  Data : Bytes
  deriving DecidableEq, Repr

/-- The `bind.TransactOpts` returned by `auth.getAuth`. -/
structure TransactOpts where
  From : Address
  GasPrice : Int
  Signer : Address → Transaction → Except GoError Transaction

/-- The repository type `TransactAuth` is declared outside `chain.go`; the
code only tests `auth != nil` and calls `auth.getAuth(ctx)`, whose results
are supplied by the environment on each tick. -/
structure TransactAuth where
  deriving DecidableEq, Repr

/-- What go-ethereum provides and `chain.go` uses as given: the method
`tx.Hash()` and the error value `ethereum.NotFound`. -/
structure Lib where
  NotFound : GoError
  Hash : Transaction → Nat

/-- Line 37. -/
def parityErr : String :=
  "Block information is incomplete while ancient block sync is still in progress, before it's finished we can't determine the existence of requested item."

/-- Line 38. -/
def parityErr2 : String := "missing required field 'transactionHash' for Log"

/-- Line 45, `time.Minute * 5` in nanoseconds (the unit of `time.Duration`). -/
def rbfInterval : Int := 60 * 1000000000 * 5

/-- One second in nanoseconds. -/
def second : Int := 1000000000

/-- The outside world on one firing of the timer. -/
structure TickEnv where
  /-- the clock when `time.Since(lastRbf)` is evaluated (line 52) -/
  now : Int
  /-- the result of `auth.getAuth(ctx)` (line 92) -/
  getAuth : Except GoError TransactOpts
  /-- the result of `client.SendTransaction` (line 111), `none` for a nil error -/
  SendTransaction : Transaction → Option GoError
  /-- the clock when `lastRbf = time.Now()` is executed (line 56) -/
  nowAfterRbf : Int
  /-- the result of `client.TransactionReceipt` (line 61) -/
  TransactionReceipt : Hash → Option Receipt × Option GoError

/-- Which case of the `select` of line 50 is taken. -/
inductive Event where
  | tick (env : TickEnv)
  | done

/-- The calls made to the outside world. -/
inductive Call where
  | getAuth
  | Signer (sender : Address) (tx : Transaction)
  | SendTransaction (tx : Transaction)
  | TransactionReceipt (txHash : Hash)
  | CallContract (msg : CallMsg) (blockNumber : Int)
  deriving DecidableEq, Repr

/-- The memory shared with the caller: the transaction `tx` points to, and the
log of outside calls made so far. -/
structure World where
  tx : Transaction
  calls : List Call
  deriving DecidableEq, Repr

/-- The local variables of the polling loop. -/
structure LoopVars where
  txHash : Hash
  lastRbf : Int
  deriving DecidableEq, Repr

/-- How far a function got on a finite script: still at the wait point of the
loop, returned `(receipt, err)`, or stopped by a nil dereference. -/
inductive Run where
  | blocked (v : LoopVars)
  | returned (receipt : Option Receipt) (err : Option GoError)
  | panicked
  deriving DecidableEq, Repr

/-- The Go closure type `func() (ethcommon.Hash, error)`, reading the world of
the current tick and acting on the shared memory. -/
abbrev Rbf := TickEnv → World → (Hash × Option GoError) × World

/-- Appends a call to the log. -/
def World.log (w : World) (c : Call) : World := { w with calls := w.calls ++ [c] }

/-- Lines 52-60: the escalation branch of one tick. -/
def escalate (attemptRbf : Option Rbf) (env : TickEnv) (v : LoopVars) (w : World) :
    LoopVars × World :=
  match attemptRbf with
  | none => (v, w)
  | some f =>
    if env.now - v.lastRbf ≥ rbfInterval then
      match f env w with
      | ((h, none), w1) => ({ txHash := h, lastRbf := env.nowAfterRbf }, w1)
      | ((h, some _), w1) => ({ txHash := h, lastRbf := v.lastRbf }, w1)
    else (v, w)

/-- Lines 61-77: how the result of the receipt fetch is read; `none` is
`continue`. -/
def classify (lib : Lib) (res : Option Receipt × Option GoError) :
    Option (Option Receipt × Option GoError) :=
  match res with
  | (none, none) => none
  | (_, some err) =>
    if err.Error = lib.NotFound.Error ∨ err.Error = parityErr then none
    else if err.Error = parityErr2 then none
    else some (none, some (GoError.WithStack err))
  | (some receipt, none) => some (some receipt, none)

/-- Lines 50-80: one iteration of the loop. -/
def loopBody (lib : Lib) (attemptRbf : Option Rbf) (ev : Event) (v : LoopVars) (w : World) :
    Run × World :=
  match ev with
  | .done => (.returned none (some (Errorf "receipt not found")), w)
  | .tick env =>
    let s := escalate attemptRbf env v w
    let w2 := s.2.log (.TransactionReceipt s.1.txHash)
    match classify lib (env.TransactionReceipt s.1.txHash) with
    | none => (.blocked s.1, w2)
    | some (receipt, err) => (.returned receipt err, w2)

/-- Lines 49-81: the loop, over the events of the script. -/
def loop (lib : Lib) (attemptRbf : Option Rbf) : List Event → LoopVars → World → Run × World
  | [], v, w => (.blocked v, w)
  | ev :: rest, v, w =>
    match loopBody lib attemptRbf ev v w with
    | (.blocked v1, w1) => loop lib attemptRbf rest v1 w1
    | r => r

/-- Lines 47-82; `start` is the clock read by `lastRbf := time.Now()`. -/
def waitForReceiptWithResultsSimpleInternal (lib : Lib) (start : Int) (script : List Event)
    (txHash : Hash) (attemptRbf : Option Rbf) (w : World) : Run × World :=
  loop lib attemptRbf script { txHash := txHash, lastRbf := start } w

/-- Lines 84-86. -/
def WaitForReceiptWithResultsSimple (lib : Lib) (start : Int) (script : List Event)
    (txHash : Hash) (w : World) : Run × World :=
  waitForReceiptWithResultsSimpleInternal lib start script txHash none w

/-- Lines 99-107: `types.NewTx(legacyTx)`, the unsigned replacement, which
takes nonce, gas limit, recipient, value and payload from `tx` and the gas
price from the auth provider. -/
def replacementOf (tx : Transaction) (price : Int) : Transaction :=
  NewTx { Nonce := tx.Nonce, GasPrice := price, Gas := tx.Gas, To := tx.To, Value := tx.Value,
          Data := tx.Data }

/-- Lines 91-117: the closure `attemptRbf`. -/
def attemptRbf (lib : Lib) : Rbf := fun env w =>
  let w1 := w.log .getAuth
  match env.getAuth with
  | .error err => ((0, some err), w1)
  | .ok auth =>
    if auth.GasPrice ≤ w1.tx.GasPrice then ((lib.Hash w1.tx, none), w1)
    else
      let w2 := w1.log (.Signer auth.From (replacementOf w1.tx auth.GasPrice))
      match auth.Signer auth.From (replacementOf w1.tx auth.GasPrice) with
      | .error err => ((0, some err), w2)
      | .ok newTx =>
        let w3 := w2.log (.SendTransaction w2.tx)
        match env.SendTransaction w2.tx with
        | some err => ((0, some err), w3)
        | none => ((lib.Hash newTx, none), { w3 with tx := newTx })

/-- Lines 89-91 and 118: the closure is only built when `auth != nil`. -/
def rbfOf (lib : Lib) (auth : Option TransactAuth) : Option Rbf :=
  match auth with
  | some _ => some (attemptRbf lib)
  | none => none

/-- Lines 126-134. -/
def callMsgOf (sender : Address) (tx : Transaction) : CallMsg :=
  { From := sender, To := tx.To, Gas := tx.Gas, GasTipCap := tx.GasTipCap,
    GasFeeCap := tx.GasFeeCap, Value := tx.Value, Data := tx.Data }

/-- Lines 88-142; `CallContract` is the answer of `client.CallContract`. -/
def WaitForReceiptWithResultsAndReplaceByFee (lib : Lib) (start : Int) (script : List Event)
    (CallContract : CallMsg → Int → Except GoError Bytes) (sender : Address)
    (methodName : String) (auth : Option TransactAuth) (w : World) : Run × World :=
  match waitForReceiptWithResultsSimpleInternal lib start script (lib.Hash w.tx)
      (rbfOf lib auth) w with
  | (.blocked v, w1) => (.blocked v, w1)
  | (.panicked, w1) => (.panicked, w1)
  | (.returned _ (some err), w1) => (.returned none (some (GoError.WithStack err)), w1)
  | (.returned none none, w1) => (.panicked, w1)
  | (.returned (some receipt) none, w1) =>
    if receipt.Status ≠ 1 then
      let w2 := w1.log (.CallContract (callMsgOf sender w1.tx) receipt.BlockNumber)
      match CallContract (callMsgOf sender w1.tx) receipt.BlockNumber with
      | .error err =>
        (.returned none (some (GoError.Wrapf err ("transaction " ++ methodName ++ " failed"))), w2)
      | .ok data =>
        (.returned none (some (Errorf
          ("transaction " ++ methodName ++ " failed with tx " ++ goString data))), w2)
    else (.returned (some receipt) none, w1)

/-- Lines 144-146. -/
def WaitForReceiptWithResults (lib : Lib) (start : Int) (script : List Event)
    (CallContract : CallMsg → Int → Except GoError Bytes) (sender : Address)
    (methodName : String) (w : World) : Run × World :=
  WaitForReceiptWithResultsAndReplaceByFee lib start script CallContract sender methodName none w

/-! ## Concrete data used by the evaluations below -/

/-- A library instance: `ethereum.NotFound` is `errors.New("not found")`, and
a toy hash that tells the example transactions apart. -/
def exLib : Lib :=
  { NotFound := .New "not found", Hash := fun tx => tx.Sig * 1000 + tx.GasPrice.toNat }

/-- The transaction being tracked in the examples: gas price 100. -/
def exTx : Transaction :=
  { Nonce := 7, GasPrice := 100, GasTipCap := 100, GasFeeCap := 100, Gas := 21000,
    To := some 5, Value := 1, Data := [1, 2], Sig := 11 }

/-- A signer that succeeds and stamps signature `12`. -/
def exSigner : Address → Transaction → Except GoError Transaction :=
  fun _ tx => .ok { tx with Sig := 12 }

/-- The replacement the signer produces for `exTx` at gas price 150. -/
def exNewTx : Transaction :=
  { Nonce := 7, GasPrice := 150, GasTipCap := 150, GasFeeCap := 150, Gas := 21000,
    To := some 5, Value := 1, Data := [1, 2], Sig := 12 }

/-- The initial memory of the examples. -/
def exWorld : World := { tx := exTx, calls := [] }

/-- A tick at time `now` on which the auth provider fails and no receipt is
known. -/
def tickAuthFails (now : Int) : TickEnv :=
  { now := now, getAuth := .error (.New "auth unavailable"), SendTransaction := fun _ => none,
    nowAfterRbf := now, TransactionReceipt := fun _ => (none, none) }

/-- A tick at time `now` on which the auth provider suggests `price`, the
broadcast is accepted and no receipt is known. -/
def tickSuggest (now : Int) (price : Int) : TickEnv :=
  { now := now, getAuth := .ok { From := 9, GasPrice := price, Signer := exSigner },
    SendTransaction := fun _ => none, nowAfterRbf := now,
    TransactionReceipt := fun _ => (none, none) }

/-- A tick on which the receipt fetch answers `res` for every hash. -/
def tickFetch (now : Int) (res : Option Receipt × Option GoError) : TickEnv :=
  { now := now, getAuth := .error (.New "auth unavailable"), SendTransaction := fun _ => none,
    nowAfterRbf := now, TransactionReceipt := fun _ => res }

/-- A `CallContract` that answers the bytes of "insufficient balance". -/
def exCallContract : CallMsg → Int → Except GoError Bytes :=
  fun _ _ => .ok [105, 110, 115, 117, 102, 102, 105, 99, 105, 101, 110, 116, 32,
    98, 97, 108, 97, 110, 99, 101]

/-- A receipt with success status. -/
def exReceipt : Receipt := { Status := 1, BlockNumber := 42, TxHash := 11100 }

/-- A receipt with failure status. -/
def exFailedReceipt : Receipt := { Status := 0, BlockNumber := 42, TxHash := 11100 }

/-- The tick `env` with the answer of its receipt fetch replaced by `res`. -/
def withFetch (env : TickEnv) (res : Option Receipt × Option GoError) : TickEnv :=
  { env with TransactionReceipt := fun _ => res }

/-- The transactions handed to `SendTransaction`, in order. -/
def sent : List Call → List Transaction
  | [] => []
  | .SendTransaction tx :: cs => tx :: sent cs
  | _ :: cs => sent cs

/-- A tick at time `now` on which the auth provider suggests `price`, signing
succeeds, the broadcast is rejected and no receipt is known. -/
def tickSendFails (now : Int) (price : Int) : TickEnv :=
  { now := now, getAuth := .ok { From := 9, GasPrice := price, Signer := exSigner },
    SendTransaction := fun _ => some (.New "replacement transaction underpriced"),
    nowAfterRbf := now, TransactionReceipt := fun _ => (none, none) }

/-- A `CallContract` that fails. -/
def exCallContractFails : CallMsg → Int → Except GoError Bytes :=
  fun _ _ => .error (.New "execution reverted")

/-- The number of times the auth provider was asked, which is the number of
times the escalator was invoked. -/
def authCalls : List Call → Nat
  | [] => 0
  | .getAuth :: cs => authCalls cs + 1
  | _ :: cs => authCalls cs

/-- The hashes asked of `TransactionReceipt`, in order. -/
def fetched : List Call → List Hash
  | [] => []
  | .TransactionReceipt h :: cs => h :: fetched cs
  | _ :: cs => fetched cs

/-! ## General facts about the loop -/

theorem sent_append (a b : List Call) : sent (a ++ b) = sent a ++ sent b := by
  induction a with
  | nil => rfl
  | cons c cs ih => cases c <;> simp [sent, ih]

theorem log_calls (w : World) (c : Call) : (w.log c).calls = w.calls ++ [c] := rfl

theorem log_tx (w : World) (c : Call) : (w.log c).tx = w.tx := rfl

theorem loop_nil (lib : Lib) (rbf : Option Rbf) (v : LoopVars) (w : World) :
    loop lib rbf [] v w = (.blocked v, w) := rfl

theorem loop_cons_blocked (lib : Lib) (rbf : Option Rbf) (ev : Event) (rest : List Event)
    (v v1 : LoopVars) (w w1 : World) (h : loopBody lib rbf ev v w = (.blocked v1, w1)) :
    loop lib rbf (ev :: rest) v w = loop lib rbf rest v1 w1 := by
  simp [loop, h]

theorem loop_cons_returned (lib : Lib) (rbf : Option Rbf) (ev : Event) (rest : List Event)
    (v : LoopVars) (w w1 : World) (r : Option Receipt) (e : Option GoError)
    (h : loopBody lib rbf ev v w = (.returned r e, w1)) :
    loop lib rbf (ev :: rest) v w = (.returned r e, w1) := by
  simp [loop, h]

/-- One iteration never stops by a nil dereference. -/
theorem loopBody_ne_panicked (lib : Lib) (rbf : Option Rbf) (ev : Event) (v : LoopVars)
    (w w1 : World) : loopBody lib rbf ev v w ≠ (.panicked, w1) := by
  cases ev with
  | done => simp [loopBody]
  | tick env =>
    simp only [loopBody]
    split <;> simp

/-- Running a script in two pieces: the second piece starts from the state the
first one blocked in, and is not run when the first one returned. -/
theorem loop_append (lib : Lib) (rbf : Option Rbf) (pre post : List Event) (v : LoopVars)
    (w : World) :
    loop lib rbf (pre ++ post) v w =
      match loop lib rbf pre v w with
      | (.blocked v1, w1) => loop lib rbf post v1 w1
      | r => r := by
  induction pre generalizing v w with
  | nil => simp [loop]
  | cons ev rest ih =>
    simp only [List.cons_append, loop]
    split
    · exact ih _ _
    · rename_i r hr
      split
      · rename_i v1 w1 heq
        exact absurd heq (hr v1 w1)
      · rfl

theorem loop_append_blocked (lib : Lib) (rbf : Option Rbf) (pre post : List Event)
    (v v1 : LoopVars) (w w1 : World) (h : loop lib rbf pre v w = (.blocked v1, w1)) :
    loop lib rbf (pre ++ post) v w = loop lib rbf post v1 w1 := by
  rw [loop_append, h]

/-! ## The five ways an escalation attempt can go -/

theorem attemptRbf_authErr (lib : Lib) (env : TickEnv) (w : World) (err : GoError)
    (h : env.getAuth = .error err) :
    attemptRbf lib env w = ((0, some err), w.log .getAuth) := by
  simp [attemptRbf, h]

theorem attemptRbf_noop (lib : Lib) (env : TickEnv) (w : World) (auth : TransactOpts)
    (h : env.getAuth = .ok auth) (hp : auth.GasPrice ≤ w.tx.GasPrice) :
    attemptRbf lib env w = ((lib.Hash w.tx, none), w.log .getAuth) := by
  simp [attemptRbf, h, log_tx, hp]

theorem attemptRbf_signErr (lib : Lib) (env : TickEnv) (w : World) (auth : TransactOpts)
    (err : GoError) (h : env.getAuth = .ok auth) (hp : w.tx.GasPrice < auth.GasPrice)
    (hs : auth.Signer auth.From (replacementOf w.tx auth.GasPrice) = .error err) :
    attemptRbf lib env w =
      ((0, some err),
        (w.log .getAuth).log (.Signer auth.From (replacementOf w.tx auth.GasPrice))) := by
  have hp2 : ¬ auth.GasPrice ≤ w.tx.GasPrice := not_le.mpr hp
  simp [attemptRbf, h, log_tx, hp2, hs]

theorem attemptRbf_sendErr (lib : Lib) (env : TickEnv) (w : World) (auth : TransactOpts)
    (newTx : Transaction) (err : GoError) (h : env.getAuth = .ok auth)
    (hp : w.tx.GasPrice < auth.GasPrice)
    (hs : auth.Signer auth.From (replacementOf w.tx auth.GasPrice) = .ok newTx)
    (hb : env.SendTransaction w.tx = some err) :
    attemptRbf lib env w =
      ((0, some err),
        (((w.log .getAuth).log (.Signer auth.From (replacementOf w.tx auth.GasPrice))).log
          (.SendTransaction w.tx))) := by
  have hp2 : ¬ auth.GasPrice ≤ w.tx.GasPrice := not_le.mpr hp
  simp [attemptRbf, h, log_tx, hp2, hs, hb]

theorem attemptRbf_replaced (lib : Lib) (env : TickEnv) (w : World) (auth : TransactOpts)
    (newTx : Transaction) (h : env.getAuth = .ok auth)
    (hp : w.tx.GasPrice < auth.GasPrice)
    (hs : auth.Signer auth.From (replacementOf w.tx auth.GasPrice) = .ok newTx)
    (hb : env.SendTransaction w.tx = none) :
    attemptRbf lib env w =
      ((lib.Hash newTx, none),
        { tx := newTx,
          calls := w.calls ++ [.getAuth, .Signer auth.From (replacementOf w.tx auth.GasPrice),
            .SendTransaction w.tx] }) := by
  have hp2 : ¬ auth.GasPrice ≤ w.tx.GasPrice := not_le.mpr hp
  simp [attemptRbf, h, log_tx, hp2, hs, hb, World.log]

/-- An attempt that hands something to `SendTransaction` was given a suggested
gas price strictly above the gas price of the tracked transaction. -/
theorem attemptRbf_sent (lib : Lib) (env : TickEnv) (w : World)
    (h : sent (attemptRbf lib env w).2.calls ≠ sent w.calls) :
    ∃ auth, env.getAuth = .ok auth ∧ w.tx.GasPrice < auth.GasPrice := by
  cases hg : env.getAuth with
  | error err =>
    rw [attemptRbf_authErr lib env w err hg] at h
    simp [log_calls, sent_append, sent] at h
  | ok auth =>
    by_cases hp : auth.GasPrice ≤ w.tx.GasPrice
    · rw [attemptRbf_noop lib env w auth hg hp] at h
      simp [log_calls, sent_append, sent] at h
    · exact ⟨auth, rfl, not_le.mp hp⟩

/-- An attempt whose suggested gas price is not above the tracked one only
asks the auth provider. -/
theorem attemptRbf_frame (lib : Lib) (env : TickEnv) (w : World)
    (h : ∀ auth, env.getAuth = .ok auth → auth.GasPrice ≤ w.tx.GasPrice) :
    (attemptRbf lib env w).2 = w.log .getAuth := by
  cases hg : env.getAuth with
  | error err => rw [attemptRbf_authErr lib env w err hg]
  | ok auth => rw [attemptRbf_noop lib env w auth hg (h auth hg)]

/-! ## Frame facts: what a run leaves untouched -/

/-- The escalation branch under suggested prices that are not above the
tracked one: the handle and the broadcasts are as before. -/
theorem escalate_frame (lib : Lib) (auth : Option TransactAuth) (env : TickEnv) (v : LoopVars)
    (w : World) (h : ∀ o, env.getAuth = .ok o → o.GasPrice ≤ w.tx.GasPrice) :
    (escalate (rbfOf lib auth) env v w).2.tx = w.tx ∧
      sent (escalate (rbfOf lib auth) env v w).2.calls = sent w.calls := by
  cases auth with
  | none => simp [rbfOf, escalate]
  | some a =>
    simp only [rbfOf, escalate]
    split
    · have hf := attemptRbf_frame lib env w h
      split
      · rename_i heq
        rw [heq] at hf
        simp only at hf
        subst hf
        simp [log_tx, log_calls, sent_append, sent]
      · rename_i heq
        rw [heq] at hf
        simp only at hf
        subst hf
        simp [log_tx, log_calls, sent_append, sent]
    · exact ⟨rfl, rfl⟩

/-- The world after one iteration is the world after its escalation branch,
plus the receipt fetch when the timer fired. -/
theorem loopBody_world (lib : Lib) (rbf : Option Rbf) (env : TickEnv) (v : LoopVars)
    (w : World) :
    (loopBody lib rbf (.tick env) v w).2 =
      (escalate rbf env v w).2.log (.TransactionReceipt (escalate rbf env v w).1.txHash) := by
  simp only [loopBody]
  split <;> rfl

theorem loop_frame (lib : Lib) (auth : Option TransactAuth) (script : List Event)
    (v : LoopVars) (w : World)
    (h : ∀ env, Event.tick env ∈ script → ∀ o, env.getAuth = .ok o → o.GasPrice ≤ w.tx.GasPrice) :
    (loop lib (rbfOf lib auth) script v w).2.tx = w.tx ∧
      sent (loop lib (rbfOf lib auth) script v w).2.calls = sent w.calls := by
  induction script generalizing v w with
  | nil => exact ⟨rfl, rfl⟩
  | cons ev rest ih =>
    have hbody : (loopBody lib (rbfOf lib auth) ev v w).2.tx = w.tx ∧
        sent (loopBody lib (rbfOf lib auth) ev v w).2.calls = sent w.calls := by
      cases ev with
      | done => exact ⟨rfl, rfl⟩
      | tick env =>
        have he := escalate_frame lib auth env v w (h env (List.mem_cons_self _ _))
        rw [loopBody_world]
        simp [log_tx, log_calls, sent_append, sent, he.1, he.2]
    simp only [loop]
    split
    · rename_i v1 w1 heq
      rw [heq] at hbody
      simp only at hbody
      have ih2 := ih v1 w1 (fun env hm o ho => by
        rw [hbody.1]
        exact h env (List.mem_cons_of_mem _ hm) o ho)
      exact ⟨ih2.1.trans hbody.1, ih2.2.trans hbody.2⟩
    · exact hbody

/-- The world after `WaitForReceiptWithResultsAndReplaceByFee` is the world
after polling, plus at most one `CallContract`. -/
theorem replaceByFee_world (lib : Lib) (start : Int) (script : List Event)
    (cc : CallMsg → Int → Except GoError Bytes) (sender : Address) (methodName : String)
    (auth : Option TransactAuth) (w : World) :
    (WaitForReceiptWithResultsAndReplaceByFee lib start script cc sender methodName auth w).2 =
        (waitForReceiptWithResultsSimpleInternal lib start script (lib.Hash w.tx)
          (rbfOf lib auth) w).2 ∨
      ∃ msg blk,
        (WaitForReceiptWithResultsAndReplaceByFee lib start script cc sender methodName auth w).2 =
          (waitForReceiptWithResultsSimpleInternal lib start script (lib.Hash w.tx)
            (rbfOf lib auth) w).2.log (.CallContract msg blk) := by
  unfold WaitForReceiptWithResultsAndReplaceByFee
  split
  all_goals (rename_i heq; rw [heq])
  · exact Or.inl rfl
  · exact Or.inl rfl
  · exact Or.inl rfl
  · exact Or.inl rfl
  · split
    · right
      split <;> exact ⟨_, _, rfl⟩
    · exact Or.inl rfl

/-- Without an escalation closure, ticks on which the fetch answers
`(nil, nil)` leave the loop at its wait point, one fetch per tick. -/
theorem loop_none_pending (lib : Lib) (pre : List Event) (v : LoopVars) (w : World)
    (hpre : ∀ ev ∈ pre, ∃ e, ev = Event.tick e ∧ e.TransactionReceipt v.txHash = (none, none)) :
    loop lib none pre v w =
      (.blocked v,
        { w with calls := w.calls ++ List.replicate pre.length (.TransactionReceipt v.txHash) }) := by
  induction pre generalizing w with
  | nil => simp [loop]
  | cons ev rest ih =>
    obtain ⟨e, rfl, he⟩ := hpre ev (List.mem_cons_self _ _)
    have hb : loopBody lib none (.tick e) v w = (.blocked v, w.log (.TransactionReceipt v.txHash)) := by
      simp [loopBody, escalate, he, classify]
    rw [loop_cons_blocked lib none _ rest v v w _ hb,
      ih (w.log (.TransactionReceipt v.txHash)) (fun ev hm => hpre ev (List.mem_cons_of_mem _ hm))]
    simp [World.log, List.replicate_succ]

/-! ## Reading the result of the fetch -/

theorem classify_fatal (lib : Lib) (x : Option Receipt) (e : GoError)
    (h1 : e.Error ≠ lib.NotFound.Error) (h2 : e.Error ≠ parityErr) (h3 : e.Error ≠ parityErr2) :
    classify lib (x, some e) = some (none, some (GoError.WithStack e)) := by
  cases x <;> simp [classify, h1, h2, h3]

theorem classify_transient (lib : Lib) (x : Option Receipt) (e : GoError)
    (h : e.Error = lib.NotFound.Error ∨ e.Error = parityErr ∨ e.Error = parityErr2) :
    classify lib (x, some e) = none := by
  cases x <;> simp only [classify] <;> rcases h with h | h | h <;> simp [h]

/-- What `classify` returns when it does not continue. -/
theorem classify_some (lib : Lib) (res : Option Receipt × Option GoError)
    (r : Option Receipt) (err : Option GoError) (h : classify lib res = some (r, err)) :
    (∃ x f, res = (x, some f) ∧ f.Error ≠ lib.NotFound.Error ∧ f.Error ≠ parityErr ∧
        f.Error ≠ parityErr2 ∧ r = none ∧ err = some (GoError.WithStack f)) ∨
      (∃ rc, res = (some rc, none) ∧ r = some rc ∧ err = none) := by
  obtain ⟨x, e⟩ := res
  cases e with
  | none =>
    cases x with
    | none => simp [classify] at h
    | some rc =>
      simp only [classify, Option.some.injEq, Prod.mk.injEq] at h
      exact Or.inr ⟨rc, rfl, h.1.symm, h.2.symm⟩
  | some f =>
    left
    by_cases h1 : f.Error = lib.NotFound.Error
    · rw [classify_transient lib x f (Or.inl h1)] at h
      exact absurd h (by simp)
    · by_cases h2 : f.Error = parityErr
      · rw [classify_transient lib x f (Or.inr (Or.inl h2))] at h
        exact absurd h (by simp)
      · by_cases h3 : f.Error = parityErr2
        · rw [classify_transient lib x f (Or.inr (Or.inr h3))] at h
          exact absurd h (by simp)
        · rw [classify_fatal lib x f h1 h2 h3] at h
          simp only [Option.some.injEq, Prod.mk.injEq] at h
          exact ⟨x, f, rfl, h1, h2, h3, h.1.symm, h.2.symm⟩

/-- One tick whose fetch is read as `continue`. -/
theorem loopBody_continue (lib : Lib) (rbf : Option Rbf) (env : TickEnv) (v : LoopVars)
    (w : World)
    (h : classify lib (env.TransactionReceipt (escalate rbf env v w).1.txHash) = none) :
    loopBody lib rbf (.tick env) v w =
      (.blocked (escalate rbf env v w).1,
        (escalate rbf env v w).2.log (.TransactionReceipt (escalate rbf env v w).1.txHash)) := by
  simp [loopBody, h]

/-- One tick whose fetch ends the loop. -/
theorem loopBody_return (lib : Lib) (rbf : Option Rbf) (env : TickEnv) (v : LoopVars)
    (w : World) (r : Option Receipt) (err : Option GoError)
    (h : classify lib (env.TransactionReceipt (escalate rbf env v w).1.txHash) = some (r, err)) :
    loopBody lib rbf (.tick env) v w =
      (.returned r err,
        (escalate rbf env v w).2.log (.TransactionReceipt (escalate rbf env v w).1.txHash)) := by
  simp [loopBody, h]

/-- The ways one iteration can return. -/
theorem loopBody_returned_cases (lib : Lib) (rbf : Option Rbf) (ev : Event) (v : LoopVars)
    (w w1 : World) (r : Option Receipt) (err : Option GoError)
    (h : loopBody lib rbf ev v w = (.returned r err, w1)) :
    (ev = .done ∧ r = none ∧ err = some (Errorf "receipt not found")) ∨
      (∃ env x f, ev = .tick env ∧
        env.TransactionReceipt (escalate rbf env v w).1.txHash = (x, some f) ∧
        f.Error ≠ lib.NotFound.Error ∧ f.Error ≠ parityErr ∧ f.Error ≠ parityErr2 ∧
        r = none ∧ err = some (GoError.WithStack f)) ∨
      (∃ env rc, ev = .tick env ∧
        env.TransactionReceipt (escalate rbf env v w).1.txHash = (some rc, none) ∧
        r = some rc ∧ err = none) := by
  cases ev with
  | done =>
    simp only [loopBody, Prod.mk.injEq, Run.returned.injEq] at h
    exact Or.inl ⟨rfl, h.1.1.symm, h.1.2.symm⟩
  | tick env =>
    right
    cases hc : classify lib (env.TransactionReceipt (escalate rbf env v w).1.txHash) with
    | none =>
      rw [loopBody_continue lib rbf env v w hc] at h
      simp at h
    | some p =>
      obtain ⟨r1, e1⟩ := p
      rw [loopBody_return lib rbf env v w r1 e1 hc] at h
      simp only [Prod.mk.injEq, Run.returned.injEq] at h
      obtain ⟨⟨hr, he⟩, _⟩ := h
      subst hr he
      rcases classify_some lib _ r1 e1 hc with ⟨x, f, hres, h1, h2, h3, hr, he⟩ | ⟨rc, hres, hr, he⟩
      · exact Or.inl ⟨env, x, f, rfl, hres, h1, h2, h3, hr, he⟩
      · exact Or.inr ⟨env, rc, rfl, hres, hr, he⟩

/-- A run that returned did so on one event, after a prefix that left it at the
wait point. -/
theorem loop_returned (lib : Lib) (rbf : Option Rbf) (script : List Event) (v : LoopVars)
    (w wf : World) (r : Option Receipt) (err : Option GoError)
    (h : loop lib rbf script v w = (.returned r err, wf)) :
    ∃ pre ev post v1 w1, script = pre ++ ev :: post ∧
      loop lib rbf pre v w = (.blocked v1, w1) ∧
      loopBody lib rbf ev v1 w1 = (.returned r err, wf) := by
  induction script generalizing v w with
  | nil => simp [loop] at h
  | cons ev rest ih =>
    cases hb : loopBody lib rbf ev v w with
    | mk run w2 =>
      cases run with
      | blocked v2 =>
        rw [loop_cons_blocked lib rbf ev rest v v2 w w2 hb] at h
        obtain ⟨pre, ev1, post, v1, w1, hs, hp, hl⟩ := ih v2 w2 h
        refine ⟨ev :: pre, ev1, post, v1, w1, by simp [hs], ?_, hl⟩
        rw [loop_cons_blocked lib rbf ev pre v v2 w w2 hb]
        exact hp
      | returned r2 e2 =>
        rw [loop_cons_returned lib rbf ev rest v w w2 r2 e2 hb] at h
        exact ⟨[], ev, rest, v, w, rfl, rfl, hb.trans h⟩
      | panicked => exact absurd hb (loopBody_ne_panicked lib rbf ev v w w2)

/-- The escalation branch does not look at the answer of the receipt fetch. -/
theorem escalate_withFetch (lib : Lib) (auth : Option TransactAuth) (env : TickEnv)
    (res : Option Receipt × Option GoError) (v : LoopVars) (w : World) :
    escalate (rbfOf lib auth) (withFetch env res) v w = escalate (rbfOf lib auth) env v w := by
  cases auth <;> rfl

/-- Every escalation attempt starts by asking the auth provider. -/
theorem attemptRbf_calls_getAuth (lib : Lib) (env : TickEnv) (w : World) :
    ∃ more, (attemptRbf lib env w).2.calls = w.calls ++ Call.getAuth :: more := by
  cases hg : env.getAuth with
  | error err =>
    rw [attemptRbf_authErr lib env w err hg]
    exact ⟨[], rfl⟩
  | ok o =>
    by_cases hp : o.GasPrice ≤ w.tx.GasPrice
    · rw [attemptRbf_noop lib env w o hg hp]
      exact ⟨[], rfl⟩
    · have hp2 := not_le.mp hp
      cases hs : o.Signer o.From (replacementOf w.tx o.GasPrice) with
      | error err =>
        rw [attemptRbf_signErr lib env w o err hg hp2 hs]
        exact ⟨[.Signer o.From (replacementOf w.tx o.GasPrice)], by simp [World.log]⟩
      | ok newTx =>
        cases hb : env.SendTransaction w.tx with
        | some err =>
          rw [attemptRbf_sendErr lib env w o newTx err hg hp2 hs hb]
          exact ⟨[.Signer o.From (replacementOf w.tx o.GasPrice), .SendTransaction w.tx],
            by simp [World.log]⟩
        | none =>
          rw [attemptRbf_replaced lib env w o newTx hg hp2 hs hb]
          exact ⟨[.Signer o.From (replacementOf w.tx o.GasPrice), .SendTransaction w.tx], rfl⟩

/-- The escalation branch when the interval has elapsed and the attempt
returns an error: the returned hash is stored, the time stamp is kept. -/
theorem escalate_failed (rbf : Rbf) (env : TickEnv) (v : LoopVars) (w : World) (err : GoError)
    (hdue : rbfInterval ≤ env.now - v.lastRbf) (hfail : (rbf env w).1.2 = some err) :
    escalate (some rbf) env v w =
      ({ txHash := (rbf env w).1.1, lastRbf := v.lastRbf }, (rbf env w).2) := by
  rcases hr : rbf env w with ⟨⟨h, e⟩, w1⟩
  simp only [hr] at hfail
  subst hfail
  simp [escalate, hdue, hr]

/-- The escalation branch when the interval has elapsed and the attempt
returns no error: the returned hash is stored and the time stamp is reset. -/
theorem escalate_succeeded (rbf : Rbf) (env : TickEnv) (v : LoopVars) (w : World)
    (hdue : rbfInterval ≤ env.now - v.lastRbf) (hok : (rbf env w).1.2 = none) :
    escalate (some rbf) env v w =
      ({ txHash := (rbf env w).1.1, lastRbf := env.nowAfterRbf }, (rbf env w).2) := by
  rcases hr : rbf env w with ⟨⟨h, e⟩, w1⟩
  simp only [hr] at hok
  subst hok
  simp [escalate, hdue, hr]

/-- The escalation branch before the interval has elapsed does nothing. -/
theorem escalate_early (rbf : Option Rbf) (env : TickEnv) (v : LoopVars) (w : World)
    (hearly : env.now - v.lastRbf < rbfInterval) : escalate rbf env v w = (v, w) := by
  cases rbf with
  | none => rfl
  | some f => simp [escalate, not_le.mpr hearly]

/-! ## The claims -/

/-- C1, evaluated at a failing input: the tracked transaction has gas price
100, the auth provider suggests 150 and the signer returns the replacement
`exNewTx`; the transaction handed to `SendTransaction` is the old tracked
transaction `exTx` (line 111 passes `tx`), not the signed replacement, while
the handle and the returned hash are those of the replacement. -/
theorem C1_broadcasts_tracked_not_replacement :
    exSigner 9 (replacementOf exTx 150) = .ok exNewTx ∧ exNewTx ≠ exTx ∧
      attemptRbf exLib (tickSuggest (300 * second) 150) exWorld =
        ((exLib.Hash exNewTx, none),
          { tx := exNewTx,
            calls := [.getAuth, .Signer 9 (replacementOf exTx 150), .SendTransaction exTx] }) := by
  refine ⟨rfl, by decide, by decide⟩

/-- C2, evaluated at a failing input: five minutes after the start the auth
provider fails; the closure returns `ethcommon.Hash{}` with its error and
line 54 stores that zero hash, so the fetch of the same tick asks for hash 0
instead of the tracked hash 11100, and the loop goes on with hash 0. -/
theorem C2_failed_escalation_zeroes_tracked_hash :
    exLib.Hash exTx = 11100 ∧
      WaitForReceiptWithResultsAndReplaceByFee exLib 0 [.tick (tickAuthFails (300 * second))]
          exCallContract 9 "deposit" (some TransactAuth.mk) exWorld =
        (.blocked { txHash := 0, lastRbf := 0 },
          { tx := exTx, calls := [.getAuth, .TransactionReceipt 0] }) := by
  refine ⟨by decide, by decide⟩

/-- C3: escalation never lowers the fee.  On any iteration from any state, a
transaction is handed to `SendTransaction` only on a tick whose escalation
attempt got a suggested gas price strictly above the gas price of the
transaction tracked at that moment; the outer function itself broadcasts
nothing beyond its polling loop; and when every suggested gas price of the
script is at most the original gas price, nothing is ever broadcast and the
handle is unchanged, for any script (any number of ticks, any clock). -/
theorem C3_escalation_never_lowers_fee (lib : Lib) (start : Int) (script : List Event)
    (cc : CallMsg → Int → Except GoError Bytes) (sender : Address) (methodName : String)
    (auth : Option TransactAuth) (w : World) :
    (∀ (ev : Event) (v : LoopVars) (w0 : World),
        sent (loopBody lib (rbfOf lib auth) ev v w0).2.calls ≠ sent w0.calls →
        ∃ env o, ev = .tick env ∧ rbfInterval ≤ env.now - v.lastRbf ∧ env.getAuth = .ok o ∧
          w0.tx.GasPrice < o.GasPrice) ∧
      sent (WaitForReceiptWithResultsAndReplaceByFee lib start script cc sender methodName
          auth w).2.calls =
        sent (waitForReceiptWithResultsSimpleInternal lib start script (lib.Hash w.tx)
          (rbfOf lib auth) w).2.calls ∧
      ((∀ env, Event.tick env ∈ script → ∀ o, env.getAuth = .ok o →
          o.GasPrice ≤ w.tx.GasPrice) →
        sent (WaitForReceiptWithResultsAndReplaceByFee lib start script cc sender methodName
            auth w).2.calls = sent w.calls ∧
          (WaitForReceiptWithResultsAndReplaceByFee lib start script cc sender methodName
            auth w).2.tx = w.tx) := by
  have houter := replaceByFee_world lib start script cc sender methodName auth w
  have hsent : sent (WaitForReceiptWithResultsAndReplaceByFee lib start script cc sender
      methodName auth w).2.calls =
      sent (waitForReceiptWithResultsSimpleInternal lib start script (lib.Hash w.tx)
        (rbfOf lib auth) w).2.calls := by
    rcases houter with h | ⟨msg, blk, h⟩
    · rw [h]
    · rw [h]
      simp [log_calls, sent_append, sent]
  have htx : (WaitForReceiptWithResultsAndReplaceByFee lib start script cc sender
      methodName auth w).2.tx =
      (waitForReceiptWithResultsSimpleInternal lib start script (lib.Hash w.tx)
        (rbfOf lib auth) w).2.tx := by
    rcases houter with h | ⟨msg, blk, h⟩
    · rw [h]
    · rw [h, log_tx]
  refine ⟨?_, hsent, ?_⟩
  · intro ev v w0 hne
    cases ev with
    | done => exact absurd rfl hne
    | tick env =>
      rw [loopBody_world] at hne
      simp only [log_calls, sent_append, sent, List.append_nil] at hne
      cases auth with
      | none => exact absurd rfl hne
      | some a =>
        simp only [rbfOf, escalate] at hne
        by_cases ht : env.now - v.lastRbf ≥ rbfInterval
        · rw [if_pos ht] at hne
          have hs : sent (attemptRbf lib env w0).2.calls ≠ sent w0.calls := by
            intro hc
            apply hne
            split <;> (rename_i heq; rw [heq] at hc; exact hc)
          obtain ⟨o, ho, hp⟩ := attemptRbf_sent lib env w0 hs
          exact ⟨env, o, rfl, ht, ho, hp⟩
        · rw [if_neg ht] at hne
          exact absurd rfl hne
  · intro hle
    have hf := loop_frame lib auth script { txHash := lib.Hash w.tx, lastRbf := start } w hle
    exact ⟨hsent.trans hf.2, htx.trans hf.1⟩

/-- C3 at a concrete run: the provider suggests 100 and then 90 for a
transaction of gas price 100; nothing is broadcast and the handle stays. -/
theorem C3_escalation_never_lowers_fee_witness :
    (∃ env o, Event.tick (tickSuggest (300 * second) 150) = .tick env ∧
        rbfInterval ≤ env.now - (0 : Int) ∧ env.getAuth = .ok o ∧
        exWorld.tx.GasPrice < o.GasPrice) ∧
    sent (WaitForReceiptWithResultsAndReplaceByFee exLib 0
        [.tick (tickSuggest (300 * second) 100), .tick (tickSuggest (600 * second) 90)]
        exCallContract 9 "deposit" (some TransactAuth.mk) exWorld).2.calls = sent exWorld.calls ∧
      (WaitForReceiptWithResultsAndReplaceByFee exLib 0
        [.tick (tickSuggest (300 * second) 100), .tick (tickSuggest (600 * second) 90)]
        exCallContract 9 "deposit" (some TransactAuth.mk) exWorld).2.tx = exWorld.tx :=
  ⟨(C3_escalation_never_lowers_fee exLib 0 [] exCallContract 9 "deposit"
      (some TransactAuth.mk) exWorld).1 (.tick (tickSuggest (300 * second) 150))
      { txHash := 11100, lastRbf := 0 } exWorld (by decide),
   (C3_escalation_never_lowers_fee exLib 0
    [.tick (tickSuggest (300 * second) 100), .tick (tickSuggest (600 * second) 90)]
    exCallContract 9 "deposit" (some TransactAuth.mk) exWorld).2.2 (by
      intro env hm o ho
      simp only [List.mem_cons, Event.tick.injEq, List.mem_singleton, List.not_mem_nil,
        or_false] at hm
      rcases hm with rfl | rfl
      · simp only [tickSuggest, Except.ok.injEq] at ho
        subst ho
        decide
      · simp only [tickSuggest, Except.ok.injEq] at ho
        subst ho
        decide)⟩

/-- C4: with no escalation closure and no cancellation, if the fetch answers
`(nil, nil)` on the first `N` ticks and `(r, nil)` on tick `N + 1`, then
`waitForReceiptWithResultsSimpleInternal` and `WaitForReceiptWithResultsSimple`
return `(r, nil)` after exactly `N + 1` fetch calls, all for the hash passed
in, whatever follows in the script. -/
theorem C4_absent_then_receipt (lib : Lib) (start : Int) (pre : List Event) (env : TickEnv)
    (rest : List Event) (h : Hash) (r : Receipt) (w : World)
    (hpre : ∀ ev ∈ pre, ∃ e, ev = Event.tick e ∧ e.TransactionReceipt h = (none, none))
    (hlast : env.TransactionReceipt h = (some r, none)) :
    waitForReceiptWithResultsSimpleInternal lib start (pre ++ .tick env :: rest) h none w =
        (.returned (some r) none,
          { w with calls := w.calls ++ List.replicate (pre.length + 1) (.TransactionReceipt h) }) ∧
      WaitForReceiptWithResultsSimple lib start (pre ++ .tick env :: rest) h w =
        (.returned (some r) none,
          { w with calls := w.calls ++ List.replicate (pre.length + 1) (.TransactionReceipt h) }) := by
  have key : loop lib none (pre ++ .tick env :: rest) { txHash := h, lastRbf := start } w =
      (.returned (some r) none,
        { w with calls := w.calls ++ List.replicate (pre.length + 1) (.TransactionReceipt h) }) := by
    rw [loop_append_blocked lib none pre _ _ _ _ _
      (loop_none_pending lib pre { txHash := h, lastRbf := start } w hpre)]
    have hb : loopBody lib none (.tick env) { txHash := h, lastRbf := start }
        { w with calls := w.calls ++ List.replicate pre.length (.TransactionReceipt h) } =
        (.returned (some r) none,
          { w with calls := w.calls ++ List.replicate (pre.length + 1) (.TransactionReceipt h) }) := by
      simp [loopBody, escalate, hlast, classify, World.log, List.replicate_add]
    exact loop_cons_returned lib none _ rest _ _ _ _ _ hb
  exact ⟨key, key⟩

/-- C4 at Scenario A: two absent results, then a success receipt. -/
theorem C4_absent_then_receipt_witness :
    waitForReceiptWithResultsSimpleInternal exLib 0
        ([.tick (tickFetch second (none, none)), .tick (tickFetch (2 * second) (none, none))] ++
          .tick (tickFetch (3 * second) (some exReceipt, none)) :: []) 11100 none exWorld =
        (.returned (some exReceipt) none,
          { exWorld with calls := exWorld.calls ++ List.replicate (2 + 1) (.TransactionReceipt 11100) }) ∧
      WaitForReceiptWithResultsSimple exLib 0
        ([.tick (tickFetch second (none, none)), .tick (tickFetch (2 * second) (none, none))] ++
          .tick (tickFetch (3 * second) (some exReceipt, none)) :: []) 11100 exWorld =
        (.returned (some exReceipt) none,
          { exWorld with calls := exWorld.calls ++ List.replicate (2 + 1) (.TransactionReceipt 11100) }) :=
  C4_absent_then_receipt exLib 0
    [.tick (tickFetch second (none, none)), .tick (tickFetch (2 * second) (none, none))]
    (tickFetch (3 * second) (some exReceipt, none)) [] 11100 exReceipt exWorld
    (by
      intro ev hm
      simp only [List.mem_cons, List.mem_singleton, List.not_mem_nil, or_false] at hm
      rcases hm with rfl | rfl
      · exact ⟨_, rfl, rfl⟩
      · exact ⟨_, rfl, rfl⟩)
    rfl

/-- C5 as stated fails: an error with message "not found" (the message of
`ethereum.NotFound`) is neither of the two named signatures, yet line 66
continues on it; the poller does not terminate on that tick and issues a
further fetch on the next tick, which here returns the receipt. -/
theorem C5_not_found_is_retried :
    (GoError.New "not found").Error ≠ parityErr ∧
      (GoError.New "not found").Error ≠ parityErr2 ∧
      waitForReceiptWithResultsSimpleInternal exLib 0
          [.tick (tickFetch second (none, some (.New "not found")))] 11100 none exWorld =
        (.blocked { txHash := 11100, lastRbf := 0 },
          { tx := exTx, calls := [.TransactionReceipt 11100] }) ∧
      waitForReceiptWithResultsSimpleInternal exLib 0
          [.tick (tickFetch second (none, some (.New "not found"))),
            .tick (tickFetch (2 * second) (some exReceipt, none))] 11100 none exWorld =
        (.returned (some exReceipt) none,
          { tx := exTx, calls := [.TransactionReceipt 11100, .TransactionReceipt 11100] }) := by
  refine ⟨by decide, by decide, by decide, by decide⟩

/-- C5, amended: a fetch error whose message is none of `ethereum.NotFound`'s
message, `parityErr` and `parityErr2` ends the poller on the tick that
received it: after any prefix that left the loop at its wait point, the
function returns a nil receipt and `errors.WithStack` of that error (same
message), and the last outside call is the fetch of that tick, whatever
follows in the script. -/
theorem C5_unrecognized_error_is_fatal (lib : Lib) (start : Int) (pre : List Event)
    (env : TickEnv) (rest : List Event) (h0 : Hash) (rbf : Option Rbf) (w0 : World)
    (v : LoopVars) (w : World) (x : Option Receipt) (e : GoError)
    (hpre : waitForReceiptWithResultsSimpleInternal lib start pre h0 rbf w0 = (.blocked v, w))
    (hfetch : env.TransactionReceipt (escalate rbf env v w).1.txHash = (x, some e))
    (h1 : e.Error ≠ lib.NotFound.Error) (h2 : e.Error ≠ parityErr)
    (h3 : e.Error ≠ parityErr2) :
    waitForReceiptWithResultsSimpleInternal lib start (pre ++ .tick env :: rest) h0 rbf w0 =
        (.returned none (some (GoError.WithStack e)),
          (escalate rbf env v w).2.log
            (.TransactionReceipt (escalate rbf env v w).1.txHash)) ∧
      (GoError.WithStack e).Error = e.Error := by
  refine ⟨?_, rfl⟩
  unfold waitForReceiptWithResultsSimpleInternal at hpre ⊢
  rw [loop_append_blocked lib rbf pre _ _ _ _ _ hpre]
  apply loop_cons_returned
  apply loopBody_return
  rw [hfetch]
  exact classify_fatal lib x e h1 h2 h3

/-- C5 (amended) at Scenario C: "connection refused" on tick 1 gives the
wrapped error at once; the receipt offered on tick 2 is never fetched. -/
theorem C5_unrecognized_error_is_fatal_witness :
    waitForReceiptWithResultsSimpleInternal exLib 0
        ([] ++ .tick (tickFetch second (none, some (.New "connection refused"))) ::
          [.tick (tickFetch (2 * second) (some exReceipt, none))]) 11100 none exWorld =
        (.returned none (some (GoError.WithStack (.New "connection refused"))),
          (escalate none (tickFetch second (none, some (.New "connection refused")))
              { txHash := 11100, lastRbf := 0 } exWorld).2.log
            (.TransactionReceipt (escalate none
              (tickFetch second (none, some (.New "connection refused")))
              { txHash := 11100, lastRbf := 0 } exWorld).1.txHash)) ∧
      (GoError.WithStack (.New "connection refused")).Error =
        (GoError.New "connection refused").Error :=
  C5_unrecognized_error_is_fatal exLib 0 []
    (tickFetch second (none, some (.New "connection refused")))
    [.tick (tickFetch (2 * second) (some exReceipt, none))] 11100 none exWorld
    { txHash := 11100, lastRbf := 0 } exWorld none (.New "connection refused")
    rfl rfl (by decide) (by decide) (by decide)

/-- C6: a fetch error whose message is `parityErr` or `parityErr2` is read like
`(nil, nil)`.  In any run of the poller as the program calls it (closure
absent or `attemptRbf`), on a tick reached at the wait point whose fetch
gives such an error: the poller does not return on that tick and its tracked
hash and last-escalation time are those left by the escalation branch; the
whole run (result, handle, calls) equals the run in which that fetch answers
`(nil, nil)`; and every run that returns does so on a cancellation, on a
fetch error that is not transient, or on a receipt. -/
theorem C6_transient_error_like_not_mined (lib : Lib) (start : Int) (pre : List Event)
    (env : TickEnv) (post : List Event) (h0 : Hash) (auth : Option TransactAuth) (w0 : World)
    (v : LoopVars) (w : World) (x : Option Receipt) (e : GoError)
    (hpre : waitForReceiptWithResultsSimpleInternal lib start pre h0 (rbfOf lib auth) w0 =
      (.blocked v, w))
    (hfetch : env.TransactionReceipt (escalate (rbfOf lib auth) env v w).1.txHash = (x, some e))
    (he : e.Error = parityErr ∨ e.Error = parityErr2) :
    waitForReceiptWithResultsSimpleInternal lib start (pre ++ [.tick env]) h0 (rbfOf lib auth) w0 =
        (.blocked (escalate (rbfOf lib auth) env v w).1,
          (escalate (rbfOf lib auth) env v w).2.log
            (.TransactionReceipt (escalate (rbfOf lib auth) env v w).1.txHash)) ∧
      waitForReceiptWithResultsSimpleInternal lib start (pre ++ .tick env :: post) h0
          (rbfOf lib auth) w0 =
        waitForReceiptWithResultsSimpleInternal lib start
          (pre ++ .tick (withFetch env (none, none)) :: post) h0 (rbfOf lib auth) w0 ∧
      (∀ script r err wf,
        waitForReceiptWithResultsSimpleInternal lib start script h0 (rbfOf lib auth) w0 =
          (.returned r err, wf) →
        ∃ before ev after v1 w1, script = before ++ ev :: after ∧
          waitForReceiptWithResultsSimpleInternal lib start before h0 (rbfOf lib auth) w0 =
            (.blocked v1, w1) ∧
          ((ev = .done ∧ r = none ∧ err = some (Errorf "receipt not found")) ∨
            (∃ env1 x1 f, ev = .tick env1 ∧
              env1.TransactionReceipt (escalate (rbfOf lib auth) env1 v1 w1).1.txHash =
                (x1, some f) ∧
              f.Error ≠ lib.NotFound.Error ∧ f.Error ≠ parityErr ∧ f.Error ≠ parityErr2 ∧
              r = none ∧ err = some (GoError.WithStack f)) ∨
            (∃ env1 rc, ev = .tick env1 ∧
              env1.TransactionReceipt (escalate (rbfOf lib auth) env1 v1 w1).1.txHash =
                (some rc, none) ∧
              r = some rc ∧ err = none))) := by
  have hcl : classify lib (env.TransactionReceipt (escalate (rbfOf lib auth) env v w).1.txHash)
      = none := by
    rw [hfetch]
    exact classify_transient lib x e (Or.inr he)
  have hbody := loopBody_continue lib (rbfOf lib auth) env v w hcl
  have hbody2 : loopBody lib (rbfOf lib auth) (.tick (withFetch env (none, none))) v w =
      loopBody lib (rbfOf lib auth) (.tick env) v w := by
    rw [hbody]
    have h2 := loopBody_continue lib (rbfOf lib auth) (withFetch env (none, none)) v w (by
      simp [withFetch, classify])
    rw [h2, escalate_withFetch]
  unfold waitForReceiptWithResultsSimpleInternal at hpre ⊢
  refine ⟨?_, ?_, ?_⟩
  · rw [loop_append_blocked lib _ pre _ _ _ _ _ hpre,
      loop_cons_blocked lib _ _ [] v _ w _ hbody, loop_nil]
  · rw [loop_append_blocked lib _ pre _ _ _ _ _ hpre,
      loop_append_blocked lib _ pre _ _ _ _ _ hpre]
    simp only [loop, hbody2]
  · intro script r err wf hret
    obtain ⟨before, ev, after, v1, w1, hs, hp, hl⟩ := loop_returned lib _ script _ _ wf r err hret
    exact ⟨before, ev, after, v1, w1, hs, hp, loopBody_returned_cases lib _ ev v1 w1 wf r err hl⟩

/-- C6 at a concrete run: `parityErr2` on tick 1, the receipt on tick 2; the
run equals the one where tick 1 answers `(nil, nil)`. -/
theorem C6_transient_error_like_not_mined_witness :
    waitForReceiptWithResultsSimpleInternal exLib 0
        ([] ++ .tick (tickFetch second (none, some (.New parityErr2))) ::
          [.tick (tickFetch (2 * second) (some exReceipt, none))]) 11100
        (rbfOf exLib (some TransactAuth.mk)) exWorld =
      waitForReceiptWithResultsSimpleInternal exLib 0
        ([] ++ .tick (withFetch (tickFetch second (none, some (.New parityErr2))) (none, none)) ::
          [.tick (tickFetch (2 * second) (some exReceipt, none))]) 11100
        (rbfOf exLib (some TransactAuth.mk)) exWorld :=
  (C6_transient_error_like_not_mined exLib 0 []
    (tickFetch second (none, some (.New parityErr2)))
    [.tick (tickFetch (2 * second) (some exReceipt, none))] 11100 (some TransactAuth.mk) exWorld
    { txHash := 11100, lastRbf := 0 } exWorld none (.New parityErr2)
    rfl rfl (Or.inr rfl)).2.1

/-- C7: when polling returns a receipt whose status is not 1 and
`CallContract`, asked with the caller's `from`, the handle's recipient, gas,
fee caps, value and data, at the receipt's block number, answers bytes `d`
without error, `WaitForReceiptWithResultsAndReplaceByFee` returns a nil
receipt and an error whose message is exactly
`transaction <methodName> failed with tx <string(d)>`; the simulated call is
the one outside call added after polling. -/
theorem C7_failed_receipt_reports_revert_data (lib : Lib) (start : Int) (script : List Event)
    (cc : CallMsg → Int → Except GoError Bytes) (sender : Address) (methodName : String)
    (auth : Option TransactAuth) (w : World) (r : Receipt) (w1 : World) (d : Bytes)
    (hpoll : waitForReceiptWithResultsSimpleInternal lib start script (lib.Hash w.tx)
      (rbfOf lib auth) w = (.returned (some r) none, w1))
    (hstatus : r.Status ≠ 1)
    (hcall : cc (callMsgOf sender w1.tx) r.BlockNumber = .ok d) :
    ∃ e, WaitForReceiptWithResultsAndReplaceByFee lib start script cc sender methodName auth w =
        (.returned none (some e),
          w1.log (.CallContract (callMsgOf sender w1.tx) r.BlockNumber)) ∧
      e.Error = "transaction " ++ methodName ++ " failed with tx " ++ goString d := by
  refine ⟨Errorf ("transaction " ++ methodName ++ " failed with tx " ++ goString d), ?_, rfl⟩
  unfold WaitForReceiptWithResultsAndReplaceByFee
  rw [hpoll]
  simp [hstatus, hcall]

/-- C7 at Scenario E: method "deposit", failed receipt, and the simulated call
answers the bytes of "insufficient balance". -/
theorem C7_failed_receipt_reports_revert_data_witness :
    (∃ e, WaitForReceiptWithResultsAndReplaceByFee exLib 0
          [.tick (tickFetch second (some exFailedReceipt, none))] exCallContract 9 "deposit"
          none exWorld =
        (.returned none (some e),
          World.log { tx := exTx, calls := [.TransactionReceipt 11100] }
            (.CallContract (callMsgOf 9 exTx) exFailedReceipt.BlockNumber)) ∧
      e.Error = "transaction " ++ "deposit" ++ " failed with tx " ++
        goString [105, 110, 115, 117, 102, 102, 105, 99, 105, 101, 110, 116, 32,
          98, 97, 108, 97, 110, 99, 101]) ∧
    "transaction " ++ "deposit" ++ " failed with tx " ++
        goString [105, 110, 115, 117, 102, 102, 105, 99, 105, 101, 110, 116, 32,
          98, 97, 108, 97, 110, 99, 101] =
      "transaction deposit failed with tx insufficient balance" :=
  ⟨C7_failed_receipt_reports_revert_data exLib 0
      [.tick (tickFetch second (some exFailedReceipt, none))] exCallContract 9 "deposit"
      none exWorld exFailedReceipt { tx := exTx, calls := [.TransactionReceipt 11100] }
      [105, 110, 115, 117, 102, 102, 105, 99, 105, 101, 110, 116, 32,
        98, 97, 108, 97, 110, 99, 101]
      (by decide) (by decide) rfl,
    by decide⟩

/-- C8, evaluated at a failing input: the escalation at five minutes succeeds
(handle replaced by `exNewTx`, fetch of that tick for its hash 12150), and
the escalation at ten minutes fails in the auth provider; from that tick on
the fetch asks for the zero hash, not for the hash of the new transaction,
although no later escalation has succeeded. -/
theorem C8_failed_escalation_drops_new_hash :
    exLib.Hash exNewTx = 12150 ∧
      WaitForReceiptWithResultsAndReplaceByFee exLib 0
          [.tick (tickSuggest (300 * second) 150), .tick (tickAuthFails (600 * second)),
            .tick (tickFetch (601 * second) (none, none))]
          exCallContract 9 "deposit" (some TransactAuth.mk) exWorld =
        (.blocked { txHash := 0, lastRbf := 300 * second },
          { tx := exNewTx,
            calls := [.getAuth, .Signer 9 (replacementOf exTx 150), .SendTransaction exTx,
              .TransactionReceipt 12150, .getAuth, .TransactionReceipt 0,
              .getAuth, .TransactionReceipt 0] }) := by
  refine ⟨by decide, by decide⟩

/-- C9 as stated fails: the auth provider fails on the tick at 300 s, and the
escalator is invoked again on the tick at 301 s, long before 300 s plus the
escalation interval. -/
theorem C9_failed_escalation_is_retried_at_once :
    301 * second < 300 * second + rbfInterval ∧
      WaitForReceiptWithResultsAndReplaceByFee exLib 0
          [.tick (tickAuthFails (300 * second)), .tick (tickAuthFails (301 * second))]
          exCallContract 9 "deposit" (some TransactAuth.mk) exWorld =
        (.blocked { txHash := 0, lastRbf := 0 },
          { tx := exTx,
            calls := [.getAuth, .TransactionReceipt 0, .getAuth, .TransactionReceipt 0] }) := by
  refine ⟨by decide, by decide⟩

/-- C9, amended: an escalation attempt that returns an error leaves the
last-escalation time as it was (line 56 runs only when `err == nil`), so on
the next tick, whose clock is not earlier, the interval test of line 52 holds
again and the escalator is invoked again: the first outside call of that tick
is `getAuth`. -/
theorem C9_failed_escalation_keeps_schedule (lib : Lib) (env env2 : TickEnv)
    (v v1 : LoopVars) (w w1 : World) (err : GoError)
    (hdue : rbfInterval ≤ env.now - v.lastRbf)
    (hfail : (attemptRbf lib env w).1.2 = some err)
    (hstep : loopBody lib (some (attemptRbf lib)) (.tick env) v w = (.blocked v1, w1))
    (hclock : env.now ≤ env2.now) :
    v1.lastRbf = v.lastRbf ∧ rbfInterval ≤ env2.now - v1.lastRbf ∧
      ∃ more, (loopBody lib (some (attemptRbf lib)) (.tick env2) v1 w1).2.calls =
        w1.calls ++ Call.getAuth :: more := by
  have hesc := escalate_failed (attemptRbf lib) env v w err hdue hfail
  have hv1 : v1 = (escalate (some (attemptRbf lib)) env v w).1 := by
    cases hc : classify lib (env.TransactionReceipt
        (escalate (some (attemptRbf lib)) env v w).1.txHash) with
    | none =>
      rw [loopBody_continue lib _ env v w hc] at hstep
      simp only [Prod.mk.injEq, Run.blocked.injEq] at hstep
      exact hstep.1.symm
    | some p =>
      rw [loopBody_return lib _ env v w p.1 p.2 hc] at hstep
      simp at hstep
  have hlast : v1.lastRbf = v.lastRbf := by rw [hv1, hesc]
  have hdue2 : rbfInterval ≤ env2.now - v1.lastRbf := by
    rw [hlast]
    linarith
  refine ⟨hlast, hdue2, ?_⟩
  rw [loopBody_world]
  obtain ⟨more, hmore⟩ := attemptRbf_calls_getAuth lib env2 w1
  have hw : (escalate (some (attemptRbf lib)) env2 v1 w1).2 = (attemptRbf lib env2 w1).2 := by
    cases ho : (attemptRbf lib env2 w1).1.2 with
    | none => rw [escalate_succeeded (attemptRbf lib) env2 v1 w1 hdue2 ho]
    | some e2 => rw [escalate_failed (attemptRbf lib) env2 v1 w1 e2 hdue2 ho]
  rw [log_calls, hw, hmore]
  exact ⟨more ++ [.TransactionReceipt (escalate (some (attemptRbf lib)) env2 v1 w1).1.txHash],
    by simp⟩

/-- C9 (amended) at a concrete run: the auth provider fails at 300 s, and the
tick at 301 s asks it again. -/
theorem C9_failed_escalation_keeps_schedule_witness :
    ({ txHash := 0, lastRbf := 0 } : LoopVars).lastRbf = (0 : Int) ∧
      rbfInterval ≤ (tickAuthFails (301 * second)).now -
        ({ txHash := 0, lastRbf := 0 } : LoopVars).lastRbf ∧
      ∃ more, (loopBody exLib (some (attemptRbf exLib)) (.tick (tickAuthFails (301 * second)))
          { txHash := 0, lastRbf := 0 }
          { tx := exTx, calls := [.getAuth, .TransactionReceipt 0] }).2.calls =
        [Call.getAuth, Call.TransactionReceipt 0] ++ Call.getAuth :: more :=
  C9_failed_escalation_keeps_schedule exLib (tickAuthFails (300 * second))
    (tickAuthFails (301 * second)) { txHash := 11100, lastRbf := 0 }
    { txHash := 0, lastRbf := 0 } exWorld
    { tx := exTx, calls := [.getAuth, .TransactionReceipt 0] } (.New "auth unavailable")
    (by decide) (by decide) (by decide) (by decide)

/-- C10: when the context is done at the wait point of an iteration, after a
prefix that left the poller waiting, `waitForReceiptWithResultsSimpleInternal`
returns a nil receipt and the error "receipt not found" and the log of outside
calls is the one of the prefix (no fetch, escalation, broadcast or simulated
call is added, whatever events follow);
`WaitForReceiptWithResultsAndReplaceByFee` then returns a nil receipt and an
error with the same message, again with no outside call added. -/
theorem C10_cancellation_returns_not_found (lib : Lib) (start : Int) (pre post : List Event)
    (cc : CallMsg → Int → Except GoError Bytes) (sender : Address) (methodName : String)
    (auth : Option TransactAuth) (w : World) (v : LoopVars) (w1 : World)
    (hpre : waitForReceiptWithResultsSimpleInternal lib start pre (lib.Hash w.tx)
      (rbfOf lib auth) w = (.blocked v, w1)) :
    waitForReceiptWithResultsSimpleInternal lib start (pre ++ .done :: post) (lib.Hash w.tx)
        (rbfOf lib auth) w = (.returned none (some (Errorf "receipt not found")), w1) ∧
      (Errorf "receipt not found").Error = "receipt not found" ∧
      ∃ e, WaitForReceiptWithResultsAndReplaceByFee lib start (pre ++ .done :: post) cc sender
          methodName auth w = (.returned none (some e), w1) ∧
        e.Error = "receipt not found" := by
  have hint : waitForReceiptWithResultsSimpleInternal lib start (pre ++ .done :: post)
      (lib.Hash w.tx) (rbfOf lib auth) w =
      (.returned none (some (Errorf "receipt not found")), w1) := by
    unfold waitForReceiptWithResultsSimpleInternal at hpre ⊢
    rw [loop_append_blocked lib _ pre _ _ _ _ _ hpre]
    exact loop_cons_returned lib _ _ post _ _ _ _ _ rfl
  refine ⟨hint, rfl, GoError.WithStack (Errorf "receipt not found"), ?_, rfl⟩
  unfold WaitForReceiptWithResultsAndReplaceByFee
  rw [hint]

/-- C10 at Scenario B: one tick without receipt, then cancellation at tick 2;
the tick offered afterwards is never used. -/
theorem C10_cancellation_returns_not_found_witness :
    waitForReceiptWithResultsSimpleInternal exLib 0
        ([.tick (tickFetch second (none, none))] ++ .done ::
          [.tick (tickFetch (2 * second) (some exReceipt, none))]) (exLib.Hash exWorld.tx)
        (rbfOf exLib (some TransactAuth.mk)) exWorld =
        (.returned none (some (Errorf "receipt not found")),
          { tx := exTx, calls := [.TransactionReceipt 11100] }) ∧
      (Errorf "receipt not found").Error = "receipt not found" ∧
      ∃ e, WaitForReceiptWithResultsAndReplaceByFee exLib 0
          ([.tick (tickFetch second (none, none))] ++ .done ::
            [.tick (tickFetch (2 * second) (some exReceipt, none))]) exCallContract 9 "deposit"
          (some TransactAuth.mk) exWorld =
          (.returned none (some e), { tx := exTx, calls := [.TransactionReceipt 11100] }) ∧
        e.Error = "receipt not found" :=
  C10_cancellation_returns_not_found exLib 0 [.tick (tickFetch second (none, none))]
    [.tick (tickFetch (2 * second) (some exReceipt, none))] exCallContract 9 "deposit"
    (some TransactAuth.mk) exWorld { txHash := 11100, lastRbf := 0 }
    { tx := exTx, calls := [.TransactionReceipt 11100] } (by decide)

/-! ## Counting the invocations of the escalator -/

theorem authCalls_append (a b : List Call) : authCalls (a ++ b) = authCalls a + authCalls b := by
  induction a with
  | nil => simp [authCalls]
  | cons c cs ih =>
    cases c
    case getAuth => simp [authCalls, ih]; omega
    all_goals simp [authCalls, ih]

theorem fetched_append (a b : List Call) : fetched (a ++ b) = fetched a ++ fetched b := by
  induction a with
  | nil => rfl
  | cons c cs ih => cases c <;> simp [fetched, ih]

/-- An escalation attempt asks the auth provider exactly once. -/
theorem attemptRbf_authCalls (lib : Lib) (env : TickEnv) (w : World) :
    authCalls (attemptRbf lib env w).2.calls = authCalls w.calls + 1 := by
  cases hg : env.getAuth with
  | error err =>
    rw [attemptRbf_authErr lib env w err hg]
    simp [World.log, authCalls_append, authCalls]
  | ok o =>
    by_cases hp : o.GasPrice ≤ w.tx.GasPrice
    · rw [attemptRbf_noop lib env w o hg hp]
      simp [World.log, authCalls_append, authCalls]
    · have hp2 := not_le.mp hp
      cases hs : o.Signer o.From (replacementOf w.tx o.GasPrice) with
      | error err =>
        rw [attemptRbf_signErr lib env w o err hg hp2 hs]
        simp [World.log, authCalls_append, authCalls]
      | ok newTx =>
        cases hb : env.SendTransaction w.tx with
        | some err =>
          rw [attemptRbf_sendErr lib env w o newTx err hg hp2 hs hb]
          simp [World.log, authCalls_append, authCalls]
        | none =>
          rw [attemptRbf_replaced lib env w o newTx hg hp2 hs hb]
          simp [authCalls_append, authCalls]

/-- The escalation branch when the interval has elapsed: the attempt is made,
its hash is stored, and the time stamp is reset exactly when it returned no
error. -/
theorem escalate_due (rbf : Rbf) (env : TickEnv) (v : LoopVars) (w : World)
    (hdue : rbfInterval ≤ env.now - v.lastRbf) :
    escalate (some rbf) env v w =
      ({ txHash := (rbf env w).1.1,
         lastRbf := if (rbf env w).1.2 = none then env.nowAfterRbf else v.lastRbf },
        (rbf env w).2) := by
  cases ho : (rbf env w).1.2 with
  | none => rw [escalate_succeeded rbf env v w hdue ho]; simp
  | some e => rw [escalate_failed rbf env v w e hdue ho]; simp

/-- Before the interval has elapsed an iteration goes as if there were no
escalation closure. -/
theorem loopBody_early (lib : Lib) (rbf : Option Rbf) (ev : Event) (v : LoopVars) (w : World)
    (hearly : ∀ env, ev = .tick env → env.now - v.lastRbf < rbfInterval) :
    loopBody lib rbf ev v w = loopBody lib none ev v w := by
  cases ev with
  | done => rfl
  | tick env =>
    simp only [loopBody, escalate_early rbf env v w (hearly env rfl),
      escalate_early none env v w (hearly env rfl)]

/-- Without a closure an iteration that goes on keeps the loop variables. -/
theorem loopBody_none_blocked (lib : Lib) (ev : Event) (v v1 : LoopVars) (w w1 : World)
    (h : loopBody lib none ev v w = (.blocked v1, w1)) :
    v1 = v ∧ w1 = w.log (.TransactionReceipt v.txHash) := by
  cases ev with
  | done => simp [loopBody] at h
  | tick env =>
    cases hc : classify lib (env.TransactionReceipt (escalate none env v w).1.txHash) with
    | none =>
      rw [loopBody_continue lib none env v w hc] at h
      simp only [Prod.mk.injEq, Run.blocked.injEq] at h
      exact ⟨h.1.symm, h.2.symm⟩
    | some p =>
      rw [loopBody_return lib none env v w p.1 p.2 hc] at h
      simp at h

/-- While every tick comes before the interval has elapsed, the run is the run
without escalation closure. -/
theorem loop_early (lib : Lib) (rbf : Option Rbf) (script : List Event) (v : LoopVars)
    (w : World)
    (hearly : ∀ env, Event.tick env ∈ script → env.now - v.lastRbf < rbfInterval) :
    loop lib rbf script v w = loop lib none script v w := by
  induction script generalizing w with
  | nil => rfl
  | cons ev rest ih =>
    have hb := loopBody_early lib rbf ev v w (fun env he => hearly env (by simp [he]))
    cases hn : loopBody lib none ev v w with
    | mk run w2 =>
      rw [hn] at hb
      cases run with
      | blocked v2 =>
        obtain ⟨hv, _⟩ := loopBody_none_blocked lib ev v v2 w w2 hn
        subst hv
        rw [loop_cons_blocked lib rbf ev rest v2 v2 w w2 hb,
          loop_cons_blocked lib none ev rest v2 v2 w w2 hn]
        exact ih w2 (fun env hm => hearly env (List.mem_cons_of_mem _ hm))
      | returned r e =>
        rw [loop_cons_returned lib rbf ev rest v w w2 r e hb,
          loop_cons_returned lib none ev rest v w w2 r e hn]
      | panicked => exact absurd hn (loopBody_ne_panicked lib none ev v w w2)

/-- Without a closure the world after a run is the initial one plus fetches
of the hash passed in. -/
theorem loop_none_world (lib : Lib) (script : List Event) (v : LoopVars) (w : World) :
    ∃ n, (loop lib none script v w).2 =
      { w with calls := w.calls ++ List.replicate n (.TransactionReceipt v.txHash) } := by
  induction script generalizing w with
  | nil => exact ⟨0, by simp [loop]⟩
  | cons ev rest ih =>
    cases hn : loopBody lib none ev v w with
    | mk run w2 =>
      cases run with
      | blocked v2 =>
        obtain ⟨hv, hw⟩ := loopBody_none_blocked lib ev v v2 w w2 hn
        subst hv hw
        rw [loop_cons_blocked lib none ev rest v2 v2 w _ hn]
        obtain ⟨n, hn2⟩ := ih (w.log (.TransactionReceipt v2.txHash))
        refine ⟨n + 1, ?_⟩
        rw [hn2]
        simp [World.log, List.replicate_succ]
      | returned r e =>
        rw [loop_cons_returned lib none ev rest v w w2 r e hn]
        cases ev with
        | done =>
          simp only [loopBody, Prod.mk.injEq] at hn
          exact ⟨0, by simp [← hn.2]⟩
        | tick env =>
          have hw := loopBody_world lib none env v w
          rw [hn] at hw
          simp only [escalate] at hw
          exact ⟨1, by simp [hw, World.log]⟩
      | panicked => exact absurd hn (loopBody_ne_panicked lib none ev v w w2)

/-! ## The claims, continued -/

/-- C11: when polling returns a receipt whose status is not 1 and the
simulated call `CallContract` itself returns an error `e`,
`WaitForReceiptWithResultsAndReplaceByFee` returns a nil receipt and
`errors.Wrapf(e, "transaction %v failed", methodName)`, whose message is
`transaction <methodName> failed: <e>`; it is built from the method name and
`e` alone, so it carries no revert data. -/
theorem C11_failed_simulation_is_wrapped (lib : Lib) (start : Int) (script : List Event)
    (cc : CallMsg → Int → Except GoError Bytes) (sender : Address) (methodName : String)
    (auth : Option TransactAuth) (w : World) (r : Receipt) (w1 : World) (e : GoError)
    (hpoll : waitForReceiptWithResultsSimpleInternal lib start script (lib.Hash w.tx)
      (rbfOf lib auth) w = (.returned (some r) none, w1))
    (hstatus : r.Status ≠ 1)
    (hcall : cc (callMsgOf sender w1.tx) r.BlockNumber = .error e) :
    WaitForReceiptWithResultsAndReplaceByFee lib start script cc sender methodName auth w =
        (.returned none (some (GoError.Wrapf e ("transaction " ++ methodName ++ " failed"))),
          w1.log (.CallContract (callMsgOf sender w1.tx) r.BlockNumber)) ∧
      (GoError.Wrapf e ("transaction " ++ methodName ++ " failed")).Error =
        "transaction " ++ methodName ++ " failed: " ++ e.Error := by
  constructor
  · unfold WaitForReceiptWithResultsAndReplaceByFee
    rw [hpoll]
    simp [hstatus, hcall]
  · show "transaction " ++ methodName ++ " failed" ++ ": " ++ e.Error =
      "transaction " ++ methodName ++ " failed: " ++ e.Error
    congr 1
    rw [String.append_assoc]
    rfl

/-- C11 at a concrete run: method "deposit", failed receipt, and the simulated
call fails with "execution reverted". -/
theorem C11_failed_simulation_is_wrapped_witness :
    (WaitForReceiptWithResultsAndReplaceByFee exLib 0
          [.tick (tickFetch second (some exFailedReceipt, none))] exCallContractFails 9
          "deposit" none exWorld =
        (.returned none
            (some (GoError.Wrapf (.New "execution reverted")
              ("transaction " ++ "deposit" ++ " failed"))),
          World.log { tx := exTx, calls := [.TransactionReceipt 11100] }
            (.CallContract (callMsgOf 9 exTx) exFailedReceipt.BlockNumber)) ∧
      (GoError.Wrapf (.New "execution reverted")
          ("transaction " ++ "deposit" ++ " failed")).Error =
        "transaction " ++ "deposit" ++ " failed: " ++ (GoError.New "execution reverted").Error) ∧
    "transaction " ++ "deposit" ++ " failed: " ++ (GoError.New "execution reverted").Error =
      "transaction deposit failed: execution reverted" :=
  ⟨C11_failed_simulation_is_wrapped exLib 0
      [.tick (tickFetch second (some exFailedReceipt, none))] exCallContractFails 9 "deposit"
      none exWorld exFailedReceipt { tx := exTx, calls := [.TransactionReceipt 11100] }
      (.New "execution reverted") (by decide) (by decide) rfl,
    by decide⟩

/-- C13: escalation is atomic on the transaction handle.  An attempt that
returns an error (auth fetch, signing or broadcast failed) leaves the
transaction `tx` points to as it was; so does a no-op attempt (suggested gas
price not strictly greater), which returns the hash of that transaction and
no error; and when the handle has changed, `SendTransaction` was called and
returned nil. -/
theorem C13_escalation_atomic_on_handle (lib : Lib) (env : TickEnv) (w : World) :
    (∀ err, (attemptRbf lib env w).1.2 = some err → (attemptRbf lib env w).2.tx = w.tx) ∧
      (∀ o, env.getAuth = .ok o → o.GasPrice ≤ w.tx.GasPrice →
        (attemptRbf lib env w).1 = (lib.Hash w.tx, none) ∧ (attemptRbf lib env w).2.tx = w.tx) ∧
      ((attemptRbf lib env w).2.tx ≠ w.tx →
        env.SendTransaction w.tx = none ∧
          Call.SendTransaction w.tx ∈ (attemptRbf lib env w).2.calls) := by
  cases hg : env.getAuth with
  | error err =>
    rw [attemptRbf_authErr lib env w err hg]
    refine ⟨fun _ _ => rfl, fun o ho => by simp at ho, fun h => absurd rfl h⟩
  | ok o =>
    by_cases hp : o.GasPrice ≤ w.tx.GasPrice
    · rw [attemptRbf_noop lib env w o hg hp]
      exact ⟨fun _ _ => rfl, fun _ _ _ => ⟨rfl, rfl⟩, fun h => absurd rfl h⟩
    · have hp2 := not_le.mp hp
      have hno : ∀ o2, (Except.ok o : Except GoError TransactOpts) = Except.ok o2 →
          o2.GasPrice ≤ w.tx.GasPrice → False := by
        intro o2 ho hle
        simp only [Except.ok.injEq] at ho
        subst ho
        exact hp hle
      cases hs : o.Signer o.From (replacementOf w.tx o.GasPrice) with
      | error err =>
        rw [attemptRbf_signErr lib env w o err hg hp2 hs]
        exact ⟨fun _ _ => rfl, fun o2 ho hle => absurd hle (fun h => hno o2 ho h),
          fun h => absurd rfl h⟩
      | ok newTx =>
        cases hb : env.SendTransaction w.tx with
        | some err =>
          rw [attemptRbf_sendErr lib env w o newTx err hg hp2 hs hb]
          exact ⟨fun _ _ => rfl, fun o2 ho hle => absurd hle (fun h => hno o2 ho h),
            fun h => absurd rfl h⟩
        | none =>
          rw [attemptRbf_replaced lib env w o newTx hg hp2 hs hb]
          exact ⟨fun err he => by simp at he,
            fun o2 ho hle => absurd hle (fun h => hno o2 ho h),
            fun _ => ⟨rfl, by simp⟩⟩

/-- C13 at concrete attempts: a rejected broadcast and a no-op leave the handle
`exTx`; the accepted broadcast is what changed the handle. -/
theorem C13_escalation_atomic_on_handle_witness :
    (attemptRbf exLib (tickSendFails (300 * second) 150) exWorld).2.tx = exWorld.tx ∧
      ((attemptRbf exLib (tickSuggest (300 * second) 100) exWorld).1 =
          (exLib.Hash exWorld.tx, none) ∧
        (attemptRbf exLib (tickSuggest (300 * second) 100) exWorld).2.tx = exWorld.tx) ∧
      ((tickSuggest (300 * second) 150).SendTransaction exWorld.tx = none ∧
        Call.SendTransaction exWorld.tx ∈
          (attemptRbf exLib (tickSuggest (300 * second) 150) exWorld).2.calls) :=
  ⟨(C13_escalation_atomic_on_handle exLib (tickSendFails (300 * second) 150) exWorld).1
      (.New "replacement transaction underpriced") (by decide),
    (C13_escalation_atomic_on_handle exLib (tickSuggest (300 * second) 100) exWorld).2.1
      { From := 9, GasPrice := 100, Signer := exSigner } rfl (by decide),
    (C13_escalation_atomic_on_handle exLib (tickSuggest (300 * second) 150) exWorld).2.2
      (by decide)⟩

/-! ## The shape of what the poller returns -/

/-- The loop never stops by a nil dereference. -/
theorem loop_ne_panicked (lib : Lib) (rbf : Option Rbf) (script : List Event) (v : LoopVars)
    (w wf : World) : loop lib rbf script v w ≠ (.panicked, wf) := by
  induction script generalizing v w with
  | nil => simp [loop]
  | cons ev rest ih =>
    cases hb : loopBody lib rbf ev v w with
    | mk run w2 =>
      cases run with
      | blocked v2 =>
        rw [loop_cons_blocked lib rbf ev rest v v2 w w2 hb]
        exact ih v2 w2
      | returned r e =>
        rw [loop_cons_returned lib rbf ev rest v w w2 r e hb]
        simp
      | panicked => exact absurd hb (loopBody_ne_panicked lib rbf ev v w w2)

/-- The loop returns either a nil receipt with an error or a receipt with a
nil error. -/
theorem loop_returned_shape (lib : Lib) (rbf : Option Rbf) (script : List Event)
    (v : LoopVars) (w wf : World) (r : Option Receipt) (e : Option GoError)
    (h : loop lib rbf script v w = (.returned r e, wf)) :
    (r = none ∧ ∃ f, e = some f) ∨ (∃ rc, r = some rc ∧ e = none) := by
  obtain ⟨pre, ev, post, v1, w1, _, _, hl⟩ := loop_returned lib rbf script v w wf r e h
  rcases loopBody_returned_cases lib rbf ev v1 w1 wf r e hl with
    ⟨_, hr, he⟩ | ⟨_, _, f, _, _, _, _, _, hr, he⟩ | ⟨_, rc, _, _, hr, he⟩
  · exact Or.inl ⟨hr, _, he⟩
  · exact Or.inl ⟨hr, _, he⟩
  · exact Or.inr ⟨rc, hr, he⟩

/-- Without a closure the loop variables never change. -/
theorem loop_none_blocked (lib : Lib) (script : List Event) (v v1 : LoopVars) (w w1 : World)
    (h : loop lib none script v w = (.blocked v1, w1)) : v1 = v := by
  induction script generalizing w with
  | nil =>
    simp only [loop, Prod.mk.injEq, Run.blocked.injEq] at h
    exact h.1.symm
  | cons ev rest ih =>
    cases hb : loopBody lib none ev v w with
    | mk run w2 =>
      cases run with
      | blocked v2 =>
        obtain ⟨hv, _⟩ := loopBody_none_blocked lib ev v v2 w w2 hb
        subst hv
        rw [loop_cons_blocked lib none ev rest v2 v2 w w2 hb] at h
        exact ih w2 h
      | returned r e =>
        rw [loop_cons_returned lib none ev rest v w w2 r e hb] at h
        simp at h
      | panicked => exact absurd hb (loopBody_ne_panicked lib none ev v w w2)

/-- C14: the result shape.  Whenever `WaitForReceiptWithResultsAndReplaceByFee`
(or `WaitForReceiptWithResults`) returns, exactly one of receipt and error is
non-nil and a returned receipt has status 1; neither ever stops by a nil
dereference.  `WaitForReceiptWithResultsSimple` returns the first receipt
fetched with a nil error as it is, whatever its status. -/
theorem C14_result_shape (lib : Lib) (start : Int) (script : List Event)
    (cc : CallMsg → Int → Except GoError Bytes) (sender : Address) (methodName : String)
    (auth : Option TransactAuth) (w : World) :
    (∀ r e wf,
        WaitForReceiptWithResultsAndReplaceByFee lib start script cc sender methodName auth w =
          (.returned r e, wf) →
        (r = none ∧ ∃ f, e = some f) ∨ (∃ rc, r = some rc ∧ e = none ∧ rc.Status = 1)) ∧
      (∀ wf,
        WaitForReceiptWithResultsAndReplaceByFee lib start script cc sender methodName auth w ≠
          (.panicked, wf)) ∧
      (∀ r e wf,
        WaitForReceiptWithResults lib start script cc sender methodName w = (.returned r e, wf) →
        (r = none ∧ ∃ f, e = some f) ∨ (∃ rc, r = some rc ∧ e = none ∧ rc.Status = 1)) ∧
      (∀ wf, WaitForReceiptWithResults lib start script cc sender methodName w ≠
        (.panicked, wf)) ∧
      (∀ (pre : List Event) (env : TickEnv) (rest : List Event) (h : Hash) (v : LoopVars)
          (w1 : World) (rc : Receipt),
        WaitForReceiptWithResultsSimple lib start pre h w = (.blocked v, w1) →
        env.TransactionReceipt h = (some rc, none) →
        WaitForReceiptWithResultsSimple lib start (pre ++ .tick env :: rest) h w =
          (.returned (some rc) none, w1.log (.TransactionReceipt h))) := by
  have shape : ∀ (a : Option TransactAuth) r e wf,
      WaitForReceiptWithResultsAndReplaceByFee lib start script cc sender methodName a w =
        (.returned r e, wf) →
      (r = none ∧ ∃ f, e = some f) ∨ (∃ rc, r = some rc ∧ e = none ∧ rc.Status = 1) := by
    intro a r e wf h
    unfold WaitForReceiptWithResultsAndReplaceByFee at h
    split at h
    · simp at h
    · simp at h
    · simp only [Prod.mk.injEq, Run.returned.injEq] at h
      exact Or.inl ⟨h.1.1.symm, _, h.1.2.symm⟩
    · simp at h
    · rename_i receipt w1 heq
      split at h
      · split at h
        · simp only [Prod.mk.injEq, Run.returned.injEq] at h
          exact Or.inl ⟨h.1.1.symm, _, h.1.2.symm⟩
        · simp only [Prod.mk.injEq, Run.returned.injEq] at h
          exact Or.inl ⟨h.1.1.symm, _, h.1.2.symm⟩
      · rename_i hst
        simp only [Prod.mk.injEq, Run.returned.injEq] at h
        exact Or.inr ⟨receipt, h.1.1.symm, h.1.2.symm, not_not.mp hst⟩
  have nopanic : ∀ (a : Option TransactAuth) wf,
      WaitForReceiptWithResultsAndReplaceByFee lib start script cc sender methodName a w ≠
        (.panicked, wf) := by
    intro a wf h
    unfold WaitForReceiptWithResultsAndReplaceByFee at h
    split at h
    · simp at h
    · rename_i w1 heq
      exact loop_ne_panicked lib _ script _ w w1 heq
    · simp at h
    · rename_i w1 heq
      rcases loop_returned_shape lib _ script _ w w1 none none heq with ⟨_, f, hf⟩ | ⟨rc, hr, _⟩
      · simp at hf
      · simp at hr
    · split at h
      · split at h <;> simp at h
      · simp at h
  refine ⟨shape auth, nopanic auth, shape none, nopanic none, ?_⟩
  intro pre env rest h v w1 rc hpre hfetch
  unfold WaitForReceiptWithResultsSimple waitForReceiptWithResultsSimpleInternal at hpre ⊢
  have hv := loop_none_blocked lib pre _ v w w1 hpre
  subst hv
  rw [loop_append_blocked lib none pre _ _ _ _ _ hpre]
  apply loop_cons_returned
  have hc : classify lib (env.TransactionReceipt
      (escalate none env { txHash := h, lastRbf := start } w1).1.txHash) =
      some (some rc, none) := by
    simp [escalate, hfetch, classify]
  exact loopBody_return lib none env _ w1 (some rc) none hc

/-- C14 at concrete runs: a failed receipt is turned into an error by
`WaitForReceiptWithResultsAndReplaceByFee` and `WaitForReceiptWithResults`,
and returned as it is by `WaitForReceiptWithResultsSimple`. -/
theorem C14_result_shape_witness :
    (((none : Option Receipt) = none ∧
          ∃ f, some (Errorf ("transaction " ++ "deposit" ++ " failed with tx " ++
            goString [105, 110, 115, 117, 102, 102, 105, 99, 105, 101, 110, 116, 32,
              98, 97, 108, 97, 110, 99, 101])) = some f) ∨
        ∃ rc, (none : Option Receipt) = some rc ∧
          some (Errorf ("transaction " ++ "deposit" ++ " failed with tx " ++
            goString [105, 110, 115, 117, 102, 102, 105, 99, 105, 101, 110, 116, 32,
              98, 97, 108, 97, 110, 99, 101])) = none ∧ rc.Status = 1) ∧
      WaitForReceiptWithResultsSimple exLib 0
          ([] ++ .tick (tickFetch second (some exFailedReceipt, none)) :: []) 11100 exWorld =
        (.returned (some exFailedReceipt) none, exWorld.log (.TransactionReceipt 11100)) :=
  ⟨(C14_result_shape exLib 0 [.tick (tickFetch second (some exFailedReceipt, none))]
      exCallContract 9 "deposit" (some TransactAuth.mk) exWorld).1 none
      (some (Errorf ("transaction " ++ "deposit" ++ " failed with tx " ++
        goString [105, 110, 115, 117, 102, 102, 105, 99, 105, 101, 110, 116, 32,
          98, 97, 108, 97, 110, 99, 101])))
      (World.log { tx := exTx, calls := [.TransactionReceipt 11100] }
        (.CallContract (callMsgOf 9 exTx) exFailedReceipt.BlockNumber)) (by decide),
    (C14_result_shape exLib 0 [] exCallContract 9 "deposit" none exWorld).2.2.2.2 []
      (tickFetch second (some exFailedReceipt, none)) [] 11100 { txHash := 11100, lastRbf := 0 }
      exWorld exFailedReceipt rfl rfl⟩

/-! ## Runs without escalation -/

theorem sent_replicate_fetch (n : Nat) (h : Hash) :
    sent (List.replicate n (Call.TransactionReceipt h)) = [] := by
  induction n with
  | zero => rfl
  | succ n ih => simp [List.replicate_succ, sent, ih]

theorem authCalls_replicate_fetch (n : Nat) (h : Hash) :
    authCalls (List.replicate n (Call.TransactionReceipt h)) = 0 := by
  induction n with
  | zero => rfl
  | succ n ih => simp [List.replicate_succ, authCalls, ih]

theorem fetched_replicate_fetch (n : Nat) (h : Hash) :
    fetched (List.replicate n (Call.TransactionReceipt h)) = List.replicate n h := by
  induction n with
  | zero => rfl
  | succ n ih => simp [List.replicate_succ, fetched, ih]

/-- Without a closure a run leaves the handle alone, broadcasts nothing, never
asks the auth provider, and fetches only the hash passed in. -/
theorem loop_none_frame (lib : Lib) (script : List Event) (v : LoopVars) (w : World) :
    (loop lib none script v w).2.tx = w.tx ∧
      sent (loop lib none script v w).2.calls = sent w.calls ∧
      authCalls (loop lib none script v w).2.calls = authCalls w.calls ∧
      ∃ n, fetched (loop lib none script v w).2.calls =
        fetched w.calls ++ List.replicate n v.txHash := by
  obtain ⟨n, hn⟩ := loop_none_world lib script v w
  rw [hn]
  refine ⟨rfl, ?_, ?_, n, ?_⟩
  · simp [sent_append, sent_replicate_fetch]
  · simp [authCalls_append, authCalls_replicate_fetch]
  · simp [fetched_append, fetched_replicate_fetch]

/-- C15: without an escalation policy nothing is ever replaced.  For every
script (any number of ticks, any clock), `WaitForReceiptWithResultsSimple`,
`WaitForReceiptWithResultsAndReplaceByFee` with a nil `auth` and
`WaitForReceiptWithResults` leave the transaction handle unchanged, hand
nothing to `SendTransaction`, never ask the auth provider, and every receipt
fetch is for the hash given at the start. -/
theorem C15_no_policy_nothing_replaced (lib : Lib) (start : Int) (script : List Event)
    (cc : CallMsg → Int → Except GoError Bytes) (sender : Address) (methodName : String)
    (h : Hash) (w : World) :
    ((WaitForReceiptWithResultsSimple lib start script h w).2.tx = w.tx ∧
        sent (WaitForReceiptWithResultsSimple lib start script h w).2.calls = sent w.calls ∧
        authCalls (WaitForReceiptWithResultsSimple lib start script h w).2.calls =
          authCalls w.calls ∧
        ∃ n, fetched (WaitForReceiptWithResultsSimple lib start script h w).2.calls =
          fetched w.calls ++ List.replicate n h) ∧
      ((WaitForReceiptWithResultsAndReplaceByFee lib start script cc sender methodName
            none w).2.tx = w.tx ∧
        sent (WaitForReceiptWithResultsAndReplaceByFee lib start script cc sender methodName
            none w).2.calls = sent w.calls ∧
        authCalls (WaitForReceiptWithResultsAndReplaceByFee lib start script cc sender
            methodName none w).2.calls = authCalls w.calls ∧
        ∃ n, fetched (WaitForReceiptWithResultsAndReplaceByFee lib start script cc sender
            methodName none w).2.calls = fetched w.calls ++ List.replicate n (lib.Hash w.tx)) ∧
      ((WaitForReceiptWithResults lib start script cc sender methodName w).2.tx = w.tx ∧
        sent (WaitForReceiptWithResults lib start script cc sender methodName w).2.calls =
          sent w.calls ∧
        authCalls (WaitForReceiptWithResults lib start script cc sender methodName w).2.calls =
          authCalls w.calls ∧
        ∃ n, fetched (WaitForReceiptWithResults lib start script cc sender methodName w).2.calls =
          fetched w.calls ++ List.replicate n (lib.Hash w.tx)) := by
  have inner := loop_none_frame lib script { txHash := lib.Hash w.tx, lastRbf := start } w
  have outer :
      (WaitForReceiptWithResultsAndReplaceByFee lib start script cc sender methodName
            none w).2.tx = w.tx ∧
        sent (WaitForReceiptWithResultsAndReplaceByFee lib start script cc sender methodName
            none w).2.calls = sent w.calls ∧
        authCalls (WaitForReceiptWithResultsAndReplaceByFee lib start script cc sender
            methodName none w).2.calls = authCalls w.calls ∧
        ∃ n, fetched (WaitForReceiptWithResultsAndReplaceByFee lib start script cc sender
            methodName none w).2.calls =
          fetched w.calls ++ List.replicate n (lib.Hash w.tx) := by
    obtain ⟨htx, hsent, hauth, n, hf⟩ := inner
    rcases replaceByFee_world lib start script cc sender methodName none w with hw | ⟨m, b, hw⟩
    · rw [hw]
      exact ⟨htx, hsent, hauth, n, hf⟩
    · rw [hw]
      refine ⟨htx, ?_, ?_, n, ?_⟩
      · rw [log_calls, sent_append]
        simpa [sent] using hsent
      · rw [log_calls, authCalls_append]
        simpa [authCalls] using hauth
      · rw [log_calls, fetched_append]
        simpa [fetched] using hf
  exact ⟨loop_none_frame lib script { txHash := h, lastRbf := start } w, outer, outer⟩

/-- C12 as stated fails: the broadcast is rejected on the tick at 300 s, so an
escalation attempt was made then; on the tick at 301 s only one second has
elapsed since that attempt, and the escalator is invoked again. -/
theorem C12_invoked_one_second_after_failed_attempt :
    301 * second - 300 * second < rbfInterval ∧
      WaitForReceiptWithResultsAndReplaceByFee exLib 0
          [.tick (tickSendFails (300 * second) 150), .tick (tickSendFails (301 * second) 150)]
          exCallContract 9 "deposit" (some TransactAuth.mk) exWorld =
        (.blocked { txHash := 0, lastRbf := 0 },
          { tx := exTx,
            calls := [.getAuth, .Signer 9 (replacementOf exTx 150), .SendTransaction exTx,
              .TransactionReceipt 0, .getAuth, .Signer 9 (replacementOf exTx 150),
              .SendTransaction exTx, .TransactionReceipt 0] }) := by
  refine ⟨by decide, by decide⟩

/-- C12, amended: on every tick the escalator is invoked exactly when a
policy is configured and the time since `lastRbf` has reached `rbfInterval`,
where `lastRbf` is the start of the call until an attempt returns no error
and is then reset to the clock after each attempt that returned no error
(and only then); in particular no attempt is made while every tick comes
earlier than one full interval after the start. -/
theorem C12_escalation_schedule (lib : Lib) (start : Int) (script : List Event) (h0 : Hash)
    (auth : Option TransactAuth) (w0 : World) (env : TickEnv) (v : LoopVars) (w : World) :
    ((auth ≠ none ∧ rbfInterval ≤ env.now - v.lastRbf) →
        authCalls (loopBody lib (rbfOf lib auth) (.tick env) v w).2.calls =
          authCalls w.calls + 1) ∧
      (¬ (auth ≠ none ∧ rbfInterval ≤ env.now - v.lastRbf) →
        authCalls (loopBody lib (rbfOf lib auth) (.tick env) v w).2.calls = authCalls w.calls) ∧
      (escalate (rbfOf lib auth) env v w).1.lastRbf =
        (if auth ≠ none ∧ rbfInterval ≤ env.now - v.lastRbf ∧ (attemptRbf lib env w).1.2 = none
          then env.nowAfterRbf else v.lastRbf) ∧
      ((∀ e, Event.tick e ∈ script → e.now - start < rbfInterval) →
        authCalls (waitForReceiptWithResultsSimpleInternal lib start script h0
          (rbfOf lib auth) w0).2.calls = authCalls w0.calls) := by
  have hfetch : authCalls (loopBody lib (rbfOf lib auth) (.tick env) v w).2.calls =
      authCalls (escalate (rbfOf lib auth) env v w).2.calls := by
    rw [loopBody_world, log_calls, authCalls_append]
    simp [authCalls]
  refine ⟨?_, ?_, ?_, ?_⟩
  · rintro ⟨ha, hdue⟩
    cases auth with
    | none => exact absurd rfl ha
    | some a =>
      rw [hfetch]
      simp only [rbfOf]
      rw [escalate_due (attemptRbf lib) env v w hdue]
      exact attemptRbf_authCalls lib env w
  · intro hn
    rw [hfetch]
    cases auth with
    | none => rfl
    | some a =>
      have hearly : env.now - v.lastRbf < rbfInterval := by
        by_contra hc
        exact hn ⟨by simp, not_lt.mp hc⟩
      rw [escalate_early _ env v w hearly]
  · cases auth with
    | none => simp [rbfOf, escalate]
    | some a =>
      simp only [rbfOf]
      by_cases hdue : rbfInterval ≤ env.now - v.lastRbf
      · rw [escalate_due (attemptRbf lib) env v w hdue]
        by_cases ho : (attemptRbf lib env w).1.2 = none
        · simp [hdue, ho]
        · simp [hdue, ho]
      · rw [escalate_early _ env v w (not_le.mp hdue)]
        simp [hdue]
  · intro hearly
    unfold waitForReceiptWithResultsSimpleInternal
    rw [loop_early lib _ script _ w0 hearly]
    exact (loop_none_frame lib script _ w0).2.2.1

/-- C12 (amended) at concrete ticks: with a policy, the tick at 300 s invokes
the escalator, and a script of ticks before 300 s never does. -/
theorem C12_escalation_schedule_witness :
    authCalls (loopBody exLib (rbfOf exLib (some TransactAuth.mk))
        (.tick (tickSuggest (300 * second) 150)) { txHash := 11100, lastRbf := 0 }
        exWorld).2.calls = authCalls exWorld.calls + 1 ∧
      authCalls (loopBody exLib (rbfOf exLib (some TransactAuth.mk))
        (.tick (tickSuggest (299 * second) 150)) { txHash := 11100, lastRbf := 0 }
        exWorld).2.calls = authCalls exWorld.calls ∧
      authCalls (waitForReceiptWithResultsSimpleInternal exLib 0
        [.tick (tickSuggest second 150), .tick (tickSuggest (299 * second) 150)] 11100
        (rbfOf exLib (some TransactAuth.mk)) exWorld).2.calls = authCalls exWorld.calls :=
  ⟨(C12_escalation_schedule exLib 0 [] 11100 (some TransactAuth.mk) exWorld
      (tickSuggest (300 * second) 150) { txHash := 11100, lastRbf := 0 } exWorld).1
      ⟨by simp, by decide⟩,
    (C12_escalation_schedule exLib 0 [] 11100 (some TransactAuth.mk) exWorld
      (tickSuggest (299 * second) 150) { txHash := 11100, lastRbf := 0 } exWorld).2.1
      (by
        rintro ⟨_, hdue⟩
        exact absurd hdue (by decide)),
    (C12_escalation_schedule exLib 0
      [.tick (tickSuggest second 150), .tick (tickSuggest (299 * second) 150)] 11100
      (some TransactAuth.mk) exWorld (tickSuggest second 150)
      { txHash := 11100, lastRbf := 0 } exWorld).2.2.2
      (by
        intro e hm
        simp only [List.mem_cons, Event.tick.injEq, List.mem_singleton, List.not_mem_nil,
          or_false] at hm
        rcases hm with rfl | rfl <;> decide)⟩

/-- C16, evaluated at a failing input: the failed attempt at 300 s has left
the tracked hash at 0 (line 54 stores the `ethcommon.Hash{}` returned with the
error); the no-op attempt at 301 s (suggested price 100, not above the
tracked price 100) returns the hash 11100 of the tracked transaction with no
error, so across the no-op the tracked hash goes from 0 to 11100 instead of
being unchanged. -/
theorem C16_noop_changes_zeroed_hash :
    WaitForReceiptWithResultsAndReplaceByFee exLib 0 [.tick (tickAuthFails (300 * second))]
        exCallContract 9 "deposit" (some TransactAuth.mk) exWorld =
        (.blocked { txHash := 0, lastRbf := 0 },
          { tx := exTx, calls := [.getAuth, .TransactionReceipt 0] }) ∧
      WaitForReceiptWithResultsAndReplaceByFee exLib 0
          [.tick (tickAuthFails (300 * second)), .tick (tickSuggest (301 * second) 100)]
          exCallContract 9 "deposit" (some TransactAuth.mk) exWorld =
        (.blocked { txHash := 11100, lastRbf := 301 * second },
          { tx := exTx,
            calls := [.getAuth, .TransactionReceipt 0, .getAuth, .TransactionReceipt 11100] }) := by
  refine ⟨by decide, by decide⟩

/-- The no-op path on its own tick.  When the escalator is invoked and the
suggested gas price is not strictly greater than the gas price of the tracked
transaction, it only asks the auth provider and returns the hash of the
tracked transaction with no error; the tracked hash becomes that hash (so it
is unchanged when it was that hash before the tick), the handle is unchanged,
the last-escalation time is reset to the clock after the attempt, and the
escalator is not invoked on any later tick that comes before a full
`rbfInterval` has elapsed from that reset. -/
theorem noop_escalation_resets_schedule (lib : Lib) (env : TickEnv) (v v1 : LoopVars)
    (w w1 : World) (o : TransactOpts) (later : List Event)
    (hdue : rbfInterval ≤ env.now - v.lastRbf)
    (hg : env.getAuth = .ok o) (hp : o.GasPrice ≤ w.tx.GasPrice)
    (hstep : loopBody lib (some (attemptRbf lib)) (.tick env) v w = (.blocked v1, w1))
    (hearly : ∀ e, Event.tick e ∈ later → e.now - env.nowAfterRbf < rbfInterval) :
    attemptRbf lib env w = ((lib.Hash w.tx, none), w.log .getAuth) ∧
      v1 = { txHash := lib.Hash w.tx, lastRbf := env.nowAfterRbf } ∧
      (v.txHash = lib.Hash w.tx → v1.txHash = v.txHash) ∧
      w1.tx = w.tx ∧
      authCalls (loop lib (some (attemptRbf lib)) later v1 w1).2.calls = authCalls w1.calls := by
  have hnoop := attemptRbf_noop lib env w o hg hp
  have hesc : escalate (some (attemptRbf lib)) env v w =
      ({ txHash := lib.Hash w.tx, lastRbf := env.nowAfterRbf }, w.log .getAuth) := by
    rw [escalate_succeeded (attemptRbf lib) env v w hdue (by rw [hnoop]), hnoop]
  have hv1 : v1 = (escalate (some (attemptRbf lib)) env v w).1 ∧
      w1 = (escalate (some (attemptRbf lib)) env v w).2.log
        (.TransactionReceipt (escalate (some (attemptRbf lib)) env v w).1.txHash) := by
    cases hc : classify lib (env.TransactionReceipt
        (escalate (some (attemptRbf lib)) env v w).1.txHash) with
    | none =>
      rw [loopBody_continue lib _ env v w hc] at hstep
      simp only [Prod.mk.injEq, Run.blocked.injEq] at hstep
      exact ⟨hstep.1.symm, hstep.2.symm⟩
    | some p =>
      rw [loopBody_return lib _ env v w p.1 p.2 hc] at hstep
      simp at hstep
  rw [hesc] at hv1
  obtain ⟨hv, hw⟩ := hv1
  simp only at hv hw
  subst hv hw
  refine ⟨hnoop, rfl, fun h => h.symm, rfl, ?_⟩
  rw [loop_early lib _ later _ _ hearly]
  exact (loop_none_frame lib later _ _).2.2.1

/-- The no-op path at a concrete run: the provider suggests 100 for a
transaction of gas price 100 at 300 s; the ticks at 301 s and 599 s do not
ask it again. -/
theorem noop_escalation_resets_schedule_example :
    attemptRbf exLib (tickSuggest (300 * second) 100) exWorld =
        ((exLib.Hash exWorld.tx, none), exWorld.log .getAuth) ∧
      ({ txHash := 11100, lastRbf := 300 * second } : LoopVars) =
        { txHash := exLib.Hash exWorld.tx,
          lastRbf := (tickSuggest (300 * second) 100).nowAfterRbf } ∧
      (({ txHash := 11100, lastRbf := 0 } : LoopVars).txHash = exLib.Hash exWorld.tx →
        ({ txHash := 11100, lastRbf := 300 * second } : LoopVars).txHash =
          ({ txHash := 11100, lastRbf := 0 } : LoopVars).txHash) ∧
      ({ tx := exTx, calls := [.getAuth, .TransactionReceipt 11100] } : World).tx = exWorld.tx ∧
      authCalls (loop exLib (some (attemptRbf exLib))
          [.tick (tickSuggest (301 * second) 150), .tick (tickSuggest (599 * second) 150)]
          { txHash := 11100, lastRbf := 300 * second }
          { tx := exTx, calls := [.getAuth, .TransactionReceipt 11100] }).2.calls =
        authCalls ({ tx := exTx, calls := [.getAuth, .TransactionReceipt 11100] } : World).calls :=
  noop_escalation_resets_schedule exLib (tickSuggest (300 * second) 100)
    { txHash := 11100, lastRbf := 0 } { txHash := 11100, lastRbf := 300 * second } exWorld
    { tx := exTx, calls := [.getAuth, .TransactionReceipt 11100] }
    { From := 9, GasPrice := 100, Signer := exSigner }
    [.tick (tickSuggest (301 * second) 150), .tick (tickSuggest (599 * second) 150)]
    (by decide) rfl (by decide) (by decide)
    (by
      intro e hm
      simp only [List.mem_cons, Event.tick.injEq, List.mem_singleton, List.not_mem_nil,
        or_false] at hm
      rcases hm with rfl | rfl <;> decide)

end Ethbridge
